import Mathlib

/-!
Verification development for the langc compiler front end.

This file shallowly embeds the lexer (`src/lex.c`) and the code generator
(`src/unnamed/part_002`, the LLVM-based `code_gen.c`) of the langc
repository, and proves/refutes the frozen specification claims about them.

Conventions of the embedding:
* The memory-mapped source buffer is a `List Char`; each `Char` stands for one
  byte of the file.  The C code appends a NUL sentinel after the mapped file;
  reading at or past the end of the list yields the NUL character `'\x00'`
  (function `peek`).  The string-literal scanner is the only loop that can
  walk past the sentinel; doing so is an out-of-bounds read in the C program
  and is modelled by the distinguished outcome `LexOut.stuck`.
* The C while-loops are modelled with an explicit fuel argument so that every
  definition is structurally recursive and kernel-reducible; the public
  wrappers supply fuel that is always sufficient for in-bounds scans
  (`2 * inp.length + 8` steps bound every loop, each iteration of which
  advances the scan position).  Exhausting fuel also yields `LexOut.stuck`,
  which no theorem below ever treats as evidence about the C program.
* `fatal_error(lineno, msg, ...)` terminates the process; it is modelled by
  the outcome `LexOut.fatal lineno msg` with the rendered message text.
  `internal_error()` is modelled by `LexOut.internalError`.
* Machine integers are `Nat` with explicit bounds where overflow matters
  (the only such place is the 64-bit integer-literal overflow check).
-/

namespace Langc

/-- Outcome of a lexer operation: success, `fatal_error` (with the current
line number and the rendered message), `internal_error()`, or the model
artifact `stuck` (fuel exhaustion / out-of-bounds read, see the header). -/
inductive LexOut (α : Type) where
  | ok (a : α)
  | fatal (lineno : Nat) (msg : String)
  | internalError
  | stuck
  deriving DecidableEq, Repr

/-- `#define MAX_LINENO 65536` in lex.c. -/
def MAX_LINENO : Nat := 65536

/-- `#define MAX_NUM_CHARS 128` in lex.c. -/
def MAX_NUM_CHARS : Nat := 128

/-- The NUL sentinel byte that `init_lex` appends after the mapped file. -/
def nulChar : Char := '\x00'

/-- Reading the input buffer: in-bounds positions return the byte, the
position just past the end returns the NUL sentinel.  (Positions beyond the
sentinel also return NUL here; the one loop that can reach them is guarded,
see `lexStringLitF`.) -/
def peek (inp : List Char) (pos : Nat) : Char :=
  inp.getD pos nulChar

/-- `isspace` from ctype.h in the C locale. -/
def isSpaceC (c : Char) : Bool :=
  c = ' ' || c = '\t' || c = '\n' || c = '\x0b' || c = '\x0c' || c = '\r'

/-- `isdigit` from ctype.h (also `is_dec_digit` in lex.c). -/
def is_dec_digit (c : Char) : Bool :=
  '0' ≤ c && c ≤ '9'

/-- `isalpha` from ctype.h in the C locale (ASCII letters). -/
def isAlphaC (c : Char) : Bool :=
  ('A' ≤ c && c ≤ 'Z') || ('a' ≤ c && c ≤ 'z')

/-- `isalnum` from ctype.h in the C locale. -/
def isAlnumC (c : Char) : Bool :=
  isAlphaC c || is_dec_digit c

/-- `is_bin_digit` in lex.c. -/
def is_bin_digit (c : Char) : Bool :=
  c = '0' || c = '1'

/-- `is_oct_digit` in lex.c (`IN_RANGE(c, '0', '7')`). -/
def is_oct_digit (c : Char) : Bool :=
  '0' ≤ c && c ≤ '7'

/-- `is_hex_digit` in lex.c: decimal digits or the UPPERCASE range
`IN_RANGE(c, 'A', 'F')` only. -/
def is_hex_digit (c : Char) : Bool :=
  is_dec_digit c || ('A' ≤ c && c ≤ 'F')

/-- `get_is_valid_digit_func` in lex.c.  The C function calls
`internal_error()` on any other base; all call sites pass 2, 8, 10 or 16, so
the default branch here (constantly false) is unreachable. -/
def isValidDigit (base : Nat) (c : Char) : Bool :=
  match base with
  | 2 => is_bin_digit c
  | 8 => is_oct_digit c
  | 10 => is_dec_digit c
  | 16 => is_hex_digit c
  | _ => false

/-- `is_ident_head` in lex.c. -/
def is_ident_head (c : Char) : Bool :=
  c = '_' || isAlphaC c

/-- `is_ident_tail` in lex.c. -/
def is_ident_tail (c : Char) : Bool :=
  c = '_' || isAlnumC c

/-- `is_op_char` in lex.c: `strchr("+-*/%<>=!&|^~.:;,[](){}", c)`. -/
def is_op_char (c : Char) : Bool :=
  "+-*/%<>=!&|^~.:;,[]()\x7b\x7d".toList.contains c

/-- The token kinds of `enum tok_kind` (src/unnamed/part_000 /
src/lex.h). -/
inductive TokKind where
  | INVALID_TOK
  | LET | VAR | IMPURE | CONST | VOLATILE
  | IDENT | TYPEDEF | TRUE | FALSE
  | INT_LIT | FLOAT_LIT | CHAR_LIT | STRING_LIT
  | PLUS_PLUS | MINUS_MINUS
  | PLUS | MINUS | STAR | SLASH | PERCENT
  | LT | GT | LT_EQ | GT_EQ | EQ_EQ | BANG_EQ
  | AMP | PIPE | CARET | TILDE
  | LT_LT | GT_GT | AMP_AMP | PIPE_PIPE
  | BANG | EQ
  | PLUS_EQ | MINUS_EQ | STAR_EQ | SLASH_EQ | PERCENT_EQ
  | AMP_EQ | PIPE_EQ | CARET_EQ | LT_LT_EQ | GT_GT_EQ
  | IF | THEN | ELSE | DO | WHILE | FOR | SWITCH
  | BREAK | CONTINUE | DEFER | RETURN
  | U8 | U16 | U32 | U64 | I8 | I16 | I32 | I64
  | F32 | F64 | BOOL | VOID | CHAR
  | DOT | COLON | SEMICOLON | COMMA
  | ARROW | BACK_ARROW | BIG_ARROW | BACKSLASH | UNDERSCORE
  | OPEN_BRACKET | CLOSE_BRACKET | OPEN_PAREN | CLOSE_PAREN
  | OPEN_BRACE | CLOSE_BRACE
  | TEOF
  deriving DecidableEq, Repr

/-- The payload union of `struct tok`.  Integer literals carry their 64-bit
magnitude as a `Nat` (always `< 2^64` by construction); float literals carry
the raw literal text, whose decimal-to-double conversion is done by the
external libc `strtod` and is not modelled; string literals carry the copied
bytes (up to the first NUL, as `strcpy` would store) and the byte length. -/
inductive TokPayload where
  | none
  | intLit (v : Nat)
  | floatLit (text : String)
  | charLit (code : Nat)
  | stringLit (val : List Char) (len : Nat)
  | ident (name : String)
  deriving DecidableEq, Repr

/-- `struct tok`: kind, 1-based line number where the token starts, and the
kind-specific payload. -/
structure Tok where
  kind : TokKind
  lineno : Nat
  payload : TokPayload
  deriving DecidableEq, Repr

/-- `init_basic_tok` in lex.c. -/
def basicTok (kind : TokKind) (lineno : Nat) : Tok :=
  ⟨kind, lineno, .none⟩

/-- `init_int_lit_tok` in lex.c. -/
def intLitTok (v : Nat) (lineno : Nat) : Tok :=
  ⟨.INT_LIT, lineno, .intLit v⟩

/-- `init_float_lit_tok` in lex.c (payload is the literal text, see
`TokPayload`). -/
def floatLitTok (text : String) (lineno : Nat) : Tok :=
  ⟨.FLOAT_LIT, lineno, .floatLit text⟩

/-- `init_char_lit_tok` in lex.c. -/
def charLitTok (code : Nat) (lineno : Nat) : Tok :=
  ⟨.CHAR_LIT, lineno, .charLit code⟩

/-- `init_string_lit_tok` in lex.c: `strcpy` stores the bytes up to the
first NUL of the accumulated buffer, `len` is the full accumulated count. -/
def stringLitTok (val : List Char) (len : Nat) (lineno : Nat) : Tok :=
  ⟨.STRING_LIT, lineno, .stringLit (val.takeWhile (fun c => c ≠ nulChar)) len⟩

/-- `init_ident_tok` in lex.c. -/
def identTok (name : String) (lineno : Nat) : Tok :=
  ⟨.IDENT, lineno, .ident name⟩

/-- `inc_lineno` in lex.c: fatal at the `MAX_LINENO` design limit. -/
def inc_lineno (lineno : Nat) : LexOut Nat :=
  if lineno = MAX_LINENO then
    .fatal lineno ("Source file longer than " ++ toString MAX_LINENO ++ " lines")
  else
    .ok (lineno + 1)

/-- Loop of `skip_line_comment` in lex.c (entered just past the `//`).
Returns the new scan position and line counter. -/
def skipLineCommentF : Nat → List Char → Nat → Nat → LexOut (Nat × Nat)
  | 0, _, _, _ => .stuck
  | fuel + 1, inp, pos, lineno =>
    if peek inp pos = '\n' then
      match inc_lineno lineno with
      | .ok l => .ok (pos + 1, l)
      | .fatal n m => .fatal n m
      | .internalError => .internalError
      | .stuck => .stuck
    else if peek inp pos = nulChar then
      .fatal lineno "End of file in line comment"
    else
      skipLineCommentF fuel inp (pos + 1) lineno

/-- Loop of `skip_block_comment` in lex.c (entered just past the `/*`). -/
def skipBlockCommentF : Nat → List Char → Nat → Nat → LexOut (Nat × Nat)
  | 0, _, _, _ => .stuck
  | fuel + 1, inp, pos, lineno =>
    if peek inp pos = '*' && peek inp (pos + 1) = '/' then
      .ok (pos + 2, lineno)
    else
      match (if peek inp pos = '\n' then inc_lineno lineno else .ok lineno) with
      | .ok l =>
        if peek inp pos = nulChar then
          .fatal l "End of file in block comment"
        else
          skipBlockCommentF fuel inp (pos + 1) l
      | .fatal n m => .fatal n m
      | .internalError => .internalError
      | .stuck => .stuck

/-- `skip_spaces` in lex.c: skip whitespace, `//` line comments and
`/* */` block comments, counting newlines. -/
def skipSpacesF : Nat → List Char → Nat → Nat → LexOut (Nat × Nat)
  | 0, _, _, _ => .stuck
  | fuel + 1, inp, pos, lineno =>
    if isSpaceC (peek inp pos) then
      match (if peek inp pos = '\n' then inc_lineno lineno else .ok lineno) with
      | .ok l => skipSpacesF fuel inp (pos + 1) l
      | .fatal n m => .fatal n m
      | .internalError => .internalError
      | .stuck => .stuck
    else if peek inp pos = '/' && peek inp (pos + 1) = '/' then
      match skipLineCommentF fuel inp (pos + 2) lineno with
      | .ok (p, l) => skipSpacesF fuel inp p l
      | .fatal n m => .fatal n m
      | .internalError => .internalError
      | .stuck => .stuck
    else if peek inp pos = '/' && peek inp (pos + 1) = '*' then
      match skipBlockCommentF fuel inp (pos + 2) lineno with
      | .ok (p, l) => skipSpacesF fuel inp p l
      | .fatal n m => .fatal n m
      | .internalError => .internalError
      | .stuck => .stuck
    else
      .ok (pos, lineno)

/-- Fuel that bounds every lexer loop on an in-bounds scan: each loop
iteration advances the position, which never exceeds `inp.length` except in
the explicitly guarded string-literal loop. -/
def lexFuel (inp : List Char) : Nat :=
  2 * inp.length + 8

/-- `skip_spaces` with the canonical fuel. -/
def skipSpaces (inp : List Char) (pos lineno : Nat) : LexOut (Nat × Nat) :=
  skipSpacesF (lexFuel inp) inp pos lineno

/-- The digit value used by libc `strtoull`/positional interpretation
(`'0'`–`'9'` and letters; only uppercase letters can occur in the
accumulated text, since `is_hex_digit` admits no lowercase). -/
def digitVal (c : Char) : Nat :=
  if is_dec_digit c then c.toNat - '0'.toNat else c.toNat - 'A'.toNat + 10

/-- The contract of libc `strtoull(num_text, NULL, base)` on a string of
valid digits for `base`: the positional-notation value. -/
def strtoullVal (base : Nat) (text : List Char) : Nat :=
  text.foldl (fun a c => a * base + digitVal c) 0

/-- `UINT64_MAX`. -/
def UINT64_MAX : Nat := 2 ^ 64 - 1

/-- Digit-accumulation loop of `lex_num_lit_with_base` in lex.c: gather
digit/`.` characters into `num_text`, rejecting a second radix point when it
is seen and rejecting a literal longer than `MAX_NUM_CHARS` (the length
check fires after the character is stored, when `i == MAX_NUM_CHARS + 1`).
Returns the accumulated text, the radix-point flag and the new position. -/
def numLitLoopF (base : Nat) :
    Nat → List Char → Nat → Nat → List Char → Bool → LexOut (List Char × Bool × Nat)
  | 0, _, _, _, _, _ => .stuck
  | fuel + 1, inp, pos, lineno, acc, foundRadixPoint =>
    let c := peek inp pos
    if isValidDigit base c || c = '.' then
      if c = '.' && foundRadixPoint then
        .fatal lineno "Floating point literal has multiple radix points"
      else
        let acc' := acc ++ [c]
        if acc'.length = MAX_NUM_CHARS + 1 then
          .fatal lineno ("Numerical literal has more than " ++ toString MAX_NUM_CHARS
              ++ " characters")
        else
          numLitLoopF base fuel inp (pos + 1) lineno acc' (foundRadixPoint || c = '.')
    else
      .ok (acc, foundRadixPoint, pos)

/-- `lex_num_lit_with_base` in lex.c.  The float branch carries the literal
text (decimal-to-double conversion is the external libc `strtod`; its ERANGE
overflow check is not modelled, no claim depends on it).  The integer branch
models `strtoull` plus the `errno == ERANGE || inum > UINT64_MAX` check as a
single bound check against `UINT64_MAX`. -/
def lex_num_lit_with_base (base : Nat) (inp : List Char) (pos lineno : Nat)
    : LexOut (Tok × Nat × Nat) :=
  match numLitLoopF base (lexFuel inp) inp pos lineno [] false with
  | .ok (numText, foundRadixPoint, pos') =>
    if numText.length = 0 then
      .fatal lineno "Numerical literal has no digits"
    else if foundRadixPoint then
      if numText.headD nulChar = '.' then
        .fatal lineno "Radix point at beginning of floating point literal"
      else if numText.getLastD nulChar = '.' then
        .fatal lineno "Radix point at end of floating point literal"
      else if base ≠ 10 then
        .fatal lineno "Floating point literal is not base 10"
      else
        .ok (floatLitTok (String.mk numText) lineno, pos', lineno)
    else
      let inum := strtoullVal base numText
      if inum > UINT64_MAX then
        .fatal lineno ("Integer literal greater than " ++ toString UINT64_MAX)
      else
        .ok (intLitTok inum lineno, pos', lineno)
  | .fatal n m => .fatal n m
  | .internalError => .internalError
  | .stuck => .stuck

/-- `lex_num_lit` in lex.c: base prefix dispatch after a leading `0`;
`0` followed by a decimal digit is a fatal leading zero; a lone `0` is the
integer zero. -/
def lex_num_lit (inp : List Char) (pos lineno : Nat) : LexOut (Tok × Nat × Nat) :=
  if peek inp pos = '0' then
    match peek inp (pos + 1) with
    | 'b' => lex_num_lit_with_base 2 inp (pos + 2) lineno
    | 'o' => lex_num_lit_with_base 8 inp (pos + 2) lineno
    | 'x' => lex_num_lit_with_base 16 inp (pos + 2) lineno
    | '.' => lex_num_lit_with_base 10 inp pos lineno
    | c =>
      if is_dec_digit c then
        .fatal lineno "Numerical literal has a leading zero"
      else
        .ok (intLitTok 0 lineno, pos + 1, lineno)
  else
    lex_num_lit_with_base 10 inp pos lineno

/-- Modelled from the spec: UTF-8 well-formedness of one leading sequence.
`is_valid_utf8` lives in utf8.c, which is not under src/; the spec requires
"validate the whole byte sequence as well-formed UTF-8".  This is the
standard (RFC 3629) classification: ASCII, or a 2/3/4-byte sequence with
continuation bytes, no overlong encodings, no surrogates, max U+10FFFF.
Returns the number of bytes of the first scalar, or `none` if malformed. -/
def utf8FirstSeqLen (bytes : List Char) : Option Nat :=
  match bytes with
  | [] => some 0
  | b0 :: rest =>
    let n0 := b0.toNat
    let isCont : Char → Bool := fun b => 0x80 ≤ b.toNat && b.toNat ≤ 0xBF
    if n0 ≤ 0x7F then
      some 1
    else if 0xC2 ≤ n0 && n0 ≤ 0xDF then
      match rest with
      | b1 :: _ => if isCont b1 then some 2 else none
      | [] => none
    else if 0xE0 ≤ n0 && n0 ≤ 0xEF then
      match rest with
      | b1 :: b2 :: _ =>
        let n1 := b1.toNat
        let lo1 := if n0 = 0xE0 then 0xA0 else 0x80
        let hi1 := if n0 = 0xED then 0x9F else 0xBF
        if lo1 ≤ n1 && n1 ≤ hi1 && isCont b2 then some 3 else none
      | _ => none
    else if 0xF0 ≤ n0 && n0 ≤ 0xF4 then
      match rest with
      | b1 :: b2 :: b3 :: _ =>
        let n1 := b1.toNat
        let lo1 := if n0 = 0xF0 then 0x90 else 0x80
        let hi1 := if n0 = 0xF4 then 0x8F else 0xBF
        if lo1 ≤ n1 && n1 ≤ hi1 && isCont b2 && isCont b3 then some 4 else none
      | _ => none
    else
      none

/-- Modelled from the spec: `is_valid_utf8` of utf8.c (not under src/),
iterated over the whole NUL-terminated byte sequence. -/
def isValidUtf8F : Nat → List Char → Bool
  | 0, _ => false
  | _, [] => true
  | fuel + 1, bytes =>
    match utf8FirstSeqLen bytes with
    | none => false
    | some 0 => true
    | some n => isValidUtf8F fuel (bytes.drop n)

/-- Modelled from the spec: whole-sequence UTF-8 validation. -/
def is_valid_utf8 (bytes : List Char) : Bool :=
  isValidUtf8F (bytes.length + 1) bytes

/-- Copy loop of `lex_string_lit` in lex.c.  A faithful do-while: the length
check runs first, then one byte is copied UNCONDITIONALLY, and only then is
the next byte compared against the closing quote.  The loop can walk past
the NUL sentinel (an out-of-bounds read in the C program), modelled by the
explicit `pos > inp.length` guard yielding `stuck`. -/
def stringCopyLoopF (maxStringSize : Nat) :
    Nat → List Char → Nat → Nat → List Char → Nat → LexOut (List Char × Nat × Nat)
  | 0, _, _, _, _, _ => .stuck
  | fuel + 1, inp, pos, lineno, text, len =>
    if pos > inp.length then
      .stuck
    else if len = maxStringSize then
      .fatal lineno ("String literal is longer than the maximum allowed length of "
          ++ toString maxStringSize ++ " bytes")
    else
      let text' := text ++ [peek inp pos]
      let pos' := pos + 1
      let len' := len + 1
      if peek inp pos' ≠ '"' then
        stringCopyLoopF maxStringSize fuel inp pos' lineno text' len'
      else
        .ok (text', len', pos')

/-- `lex_string_lit` in lex.c: skip the opening quote (asserted by the
caller's dispatch), run the copy loop, skip the closing quote, validate the
accumulated bytes as UTF-8, and build the token.  `maxStringSize` is
`MAX_STRING_SIZE` from lex.h, which is not under src/; the spec fixes only
that it is a fixed maximum, so it is a parameter here.  (The C validates
and `strcpy`s the accumulated buffer as a NUL-terminated string; literals
with embedded NUL bytes, which no claim exercises, are validated here on
the full byte list while the token still stores the `strcpy` prefix.) -/
def lex_string_lit (maxStringSize : Nat) (inp : List Char) (pos lineno : Nat)
    : LexOut (Tok × Nat × Nat) :=
  match stringCopyLoopF maxStringSize (lexFuel inp) inp (pos + 1) lineno [] 0 with
  | .ok (text, len, pos') =>
    if is_valid_utf8 text then
      .ok (stringLitTok text len lineno, pos' + 1, lineno)
    else
      .fatal lineno "Invalid string literal"
  | .fatal n m => .fatal n m
  | .internalError => .internalError
  | .stuck => .stuck

/-- Modelled from the spec: `str_to_code_point` of utf8.c (not under src/).
The spec says the char-literal scanner must "decode exactly one UTF-8 scalar
value from the input"; this returns the byte count and the code point, or
`none` on a malformed sequence (whose behaviour the spec leaves open; no
claim exercises it). -/
def strToCodePoint (inp : List Char) (pos : Nat) : Option (Nat × Nat) :=
  let tail := inp.drop pos
  match utf8FirstSeqLen tail with
  | none => none
  | some 0 => none
  | some 1 => some (1, (peek inp pos).toNat)
  | some 2 =>
    some (2, ((peek inp pos).toNat - 0xC0) * 0x40 + ((peek inp (pos + 1)).toNat - 0x80))
  | some 3 =>
    some (3, ((peek inp pos).toNat - 0xE0) * 0x1000
        + ((peek inp (pos + 1)).toNat - 0x80) * 0x40
        + ((peek inp (pos + 2)).toNat - 0x80))
  | some _ =>
    some (4, ((peek inp pos).toNat - 0xF0) * 0x40000
        + ((peek inp (pos + 1)).toNat - 0x80) * 0x1000
        + ((peek inp (pos + 2)).toNat - 0x80) * 0x40
        + ((peek inp (pos + 3)).toNat - 0x80))

/-- Modelled from the spec: `is_valid_code_point` of utf8.c (not under
src/): a Unicode scalar value — at most U+10FFFF and not a surrogate. -/
def is_valid_code_point (v : Nat) : Bool :=
  v < 0x110000 && !(0xD800 ≤ v && v ≤ 0xDFFF)

/-- `UINT32_MAX`. -/
def UINT32_MAX : Nat := 2 ^ 32 - 1

/-- `lex_char_lit` in lex.c: either a `U+` hexadecimal scalar (reusing the
base-16 numeric scanner) or one directly decoded UTF-8 scalar, followed by a
mandatory closing quote; every deviation is the single fatal message. -/
def lex_char_lit (inp : List Char) (pos lineno : Nat) : LexOut (Tok × Nat × Nat) :=
  let invalid : LexOut (Tok × Nat × Nat) := .fatal lineno "Invalid char literal"
  let pos1 := pos + 1
  if peek inp pos1 = 'U' && peek inp (pos1 + 1) = '+' then
    match lex_num_lit_with_base 16 inp (pos1 + 2) lineno with
    | .ok (numTok, pos2, _) =>
      match numTok.payload with
      | .intLit num =>
        if num > UINT32_MAX || !is_valid_code_point num then
          invalid
        else if peek inp pos2 = '\'' then
          .ok (charLitTok num lineno, pos2 + 1, lineno)
        else
          invalid
      | _ => invalid
    | .fatal n m => .fatal n m
    | .internalError => .internalError
    | .stuck => .stuck
  else
    match strToCodePoint inp pos1 with
    | some (n, c) =>
      if peek inp (pos1 + n) = '\'' then
        .ok (charLitTok c lineno, pos1 + n + 1, lineno)
      else
        invalid
    | none => invalid

/-- The keyword table built by `lookup_keyword` in lex.c; lookup misses
return `INVALID_TOK` (the hash table's null). -/
def keywordTable : List (String × TokKind) :=
  [("let", .LET), ("var", .VAR), ("impure", .IMPURE), ("const", .CONST),
   ("volatile", .VOLATILE), ("typedef", .TYPEDEF), ("true", .TRUE),
   ("false", .FALSE), ("if", .IF), ("then", .THEN), ("else", .ELSE),
   ("do", .DO), ("while", .WHILE), ("for", .FOR), ("switch", .SWITCH),
   ("break", .BREAK), ("continue", .CONTINUE), ("defer", .DEFER),
   ("return", .RETURN), ("U8", .U8), ("U16", .U16), ("U32", .U32),
   ("U64", .U64), ("I8", .I8), ("I16", .I16), ("I32", .I32), ("I64", .I64),
   ("F32", .F32), ("F64", .F64), ("bool", .BOOL), ("void", .VOID),
   ("char", .CHAR), ("_", .UNDERSCORE)]

/-- `lookup_keyword` in lex.c. -/
def lookup_keyword (keyword : String) : TokKind :=
  match keywordTable.find? (fun p => p.1 = keyword) with
  | some p => p.2
  | none => .INVALID_TOK

/-- Accumulation loop of `lex_ident` in lex.c: the size check fires BEFORE
storing, when the accumulated length has reached `maxIdentSize` and another
identifier-tail character follows. -/
def identLoopF (maxIdentSize : Nat) :
    Nat → List Char → Nat → Nat → List Char → LexOut (List Char × Nat)
  | 0, _, _, _, _ => .stuck
  | fuel + 1, inp, pos, lineno, acc =>
    if is_ident_tail (peek inp pos) then
      if acc.length = maxIdentSize then
        .fatal lineno ("Identifier longer than the maximum allowed size of "
            ++ toString maxIdentSize)
      else
        identLoopF maxIdentSize fuel inp (pos + 1) lineno (acc ++ [peek inp pos])
    else
      .ok (acc, pos)

/-- `lex_ident` in lex.c.  `maxIdentSize` is `MAX_IDENT_SIZE` from lex.h
(not under src/; a parameter, like `MAX_STRING_SIZE`). -/
def lex_ident (maxIdentSize : Nat) (inp : List Char) (pos lineno : Nat)
    : LexOut (Tok × Nat × Nat) :=
  match identLoopF maxIdentSize (lexFuel inp) inp pos lineno [] with
  | .ok (acc, pos') =>
    let ident := String.mk acc
    match lookup_keyword ident with
    | .INVALID_TOK => .ok (identTok ident lineno, pos', lineno)
    | kind => .ok (basicTok kind lineno, pos', lineno)
  | .fatal n m => .fatal n m
  | .internalError => .internalError
  | .stuck => .stuck

/-- `lex_op_0__` in lex.c: unconditional single-character operator. -/
def lexOp0 (kind : TokKind) (pos lineno : Nat) : Tok × Nat :=
  (basicTok kind lineno, pos + 1)

/-- `lex_op_1__` in lex.c: one optional second character. -/
def lexOp1 (inp : List Char) (pos lineno : Nat) (kind : TokKind)
    (c1 : Char) (kind1 : TokKind) : Tok × Nat :=
  if peek inp (pos + 1) = c1 then
    (basicTok kind1 lineno, pos + 2)
  else
    (basicTok kind lineno, pos + 1)

/-- `lex_op_2__` in lex.c: two alternative second characters. -/
def lexOp2 (inp : List Char) (pos lineno : Nat) (kind : TokKind)
    (c1 : Char) (kind1 : TokKind) (c2 : Char) (kind2 : TokKind) : Tok × Nat :=
  if peek inp (pos + 1) = c1 then
    (basicTok kind1 lineno, pos + 2)
  else if peek inp (pos + 1) = c2 then
    (basicTok kind2 lineno, pos + 2)
  else
    (basicTok kind lineno, pos + 1)

/-- `lex_op` in lex.c: the hand-built per-leading-character decision.  Note
that no case ever produces `LT_LT_EQ`, `GT_GT_EQ`, `ARROW`, `BACK_ARROW`,
`BIG_ARROW` or `BACKSLASH`, and no case looks more than one character past
the leading one. -/
def lex_op (inp : List Char) (pos lineno : Nat) : LexOut (Tok × Nat × Nat) :=
  let done : Tok × Nat → LexOut (Tok × Nat × Nat) := fun p => .ok (p.1, p.2, lineno)
  match peek inp pos with
  | '+' => done (lexOp2 inp pos lineno .PLUS '+' .PLUS_PLUS '=' .PLUS_EQ)
  | '-' => done (lexOp2 inp pos lineno .MINUS '-' .MINUS_MINUS '=' .MINUS_EQ)
  | '*' => done (lexOp1 inp pos lineno .STAR '=' .STAR_EQ)
  | '/' => done (lexOp1 inp pos lineno .SLASH '=' .SLASH_EQ)
  | '%' => done (lexOp1 inp pos lineno .PERCENT '=' .PERCENT_EQ)
  | '<' => done (lexOp2 inp pos lineno .LT '<' .LT_LT '=' .LT_EQ)
  | '>' => done (lexOp2 inp pos lineno .GT '>' .GT_GT '=' .GT_EQ)
  | '=' => done (lexOp1 inp pos lineno .EQ '=' .EQ_EQ)
  | '!' => done (lexOp1 inp pos lineno .BANG '=' .BANG_EQ)
  | '&' => done (lexOp2 inp pos lineno .AMP '&' .AMP_AMP '=' .AMP_EQ)
  | '|' => done (lexOp2 inp pos lineno .PIPE '|' .PIPE_PIPE '=' .PIPE_EQ)
  | '^' => done (lexOp1 inp pos lineno .CARET '=' .CARET_EQ)
  | '~' => done (lexOp0 .TILDE pos lineno)
  | '.' => done (lexOp0 .DOT pos lineno)
  | ':' => done (lexOp0 .COLON pos lineno)
  | ';' => done (lexOp0 .SEMICOLON pos lineno)
  | ',' => done (lexOp0 .COMMA pos lineno)
  | '[' => done (lexOp0 .OPEN_BRACKET pos lineno)
  | ']' => done (lexOp0 .CLOSE_BRACKET pos lineno)
  | '(' => done (lexOp0 .OPEN_PAREN pos lineno)
  | ')' => done (lexOp0 .CLOSE_PAREN pos lineno)
  | '\x7b' => done (lexOp0 .OPEN_BRACE pos lineno)
  | '\x7d' => done (lexOp0 .CLOSE_BRACE pos lineno)
  | _ => .internalError

/-- `tok_to_str` in lex.c: the token-to-description table.  The designated
initializer leaves `INVALID_TOK` unset (a NULL entry), modelled by
`Option`. -/
def tok_to_str : TokKind → Option String
  | .INVALID_TOK => none
  | .LET => some "`let`"
  | .VAR => some "`var`"
  | .IMPURE => some "`impure`"
  | .CONST => some "`const`"
  | .VOLATILE => some "`volatile`"
  | .IDENT => some "an identifier"
  | .TYPEDEF => some "`typedef`"
  | .TRUE => some "`true`"
  | .FALSE => some "`false`"
  | .INT_LIT => some "an integer literal"
  | .FLOAT_LIT => some "a float literal"
  | .CHAR_LIT => some "a character literal"
  | .STRING_LIT => some "a string literal"
  | .PLUS_PLUS => some "`++`"
  | .MINUS_MINUS => some "`--`"
  | .PLUS => some "`+`"
  | .MINUS => some "`-`"
  | .STAR => some "`*`"
  | .SLASH => some "`/`"
  | .PERCENT => some "`%`"
  | .LT => some "`<`"
  | .GT => some "`>`"
  | .LT_EQ => some "`<=`"
  | .GT_EQ => some "`>=`"
  | .EQ_EQ => some "`==`"
  | .BANG_EQ => some "`!=`"
  | .AMP => some "`&`"
  | .PIPE => some "`|`"
  | .CARET => some "`^`"
  | .TILDE => some "`~`"
  | .LT_LT => some "`<<`"
  | .GT_GT => some "`>>`"
  | .AMP_AMP => some "`&&`"
  | .PIPE_PIPE => some "`||`"
  | .BANG => some "`!`"
  | .EQ => some "`=`"
  | .PLUS_EQ => some "`+=`"
  | .MINUS_EQ => some "`-=`"
  | .STAR_EQ => some "`*=`"
  | .SLASH_EQ => some "`/=`"
  | .PERCENT_EQ => some "`%=`"
  | .AMP_EQ => some "`&=`"
  | .PIPE_EQ => some "`|=`"
  | .CARET_EQ => some "`^=`"
  | .LT_LT_EQ => some "`<<=`"
  | .GT_GT_EQ => some "`>>=`"
  | .IF => some "`if`"
  | .THEN => some "`then`"
  | .ELSE => some "`else`"
  | .DO => some "`do`"
  | .WHILE => some "`while`"
  | .FOR => some "`for`"
  | .SWITCH => some "`switch`"
  | .BREAK => some "`break`"
  | .CONTINUE => some "`continue`"
  | .DEFER => some "`defer`"
  | .RETURN => some "`return`"
  | .U8 => some "`U8`"
  | .U16 => some "`U16`"
  | .U32 => some "`U32`"
  | .U64 => some "`U64`"
  | .I8 => some "`I8`"
  | .I16 => some "`I16`"
  | .I32 => some "`I32`"
  | .I64 => some "`I64`"
  | .F32 => some "`F32`"
  | .F64 => some "`F64`"
  | .BOOL => some "`bool`"
  | .VOID => some "`void`"
  | .CHAR => some "`char`"
  | .DOT => some "`.`"
  | .COLON => some "`:`"
  | .SEMICOLON => some "`;`"
  | .COMMA => some "`,`"
  | .ARROW => some "`->`"
  | .BACK_ARROW => some "`<-`"
  | .BIG_ARROW => some "`=>`"
  | .BACKSLASH => some "`\\`"
  | .UNDERSCORE => some "`_`"
  | .OPEN_BRACKET => some "`[`"
  | .CLOSE_BRACKET => some "`]`"
  | .OPEN_PAREN => some "`(`"
  | .CLOSE_PAREN => some "`)`"
  | .OPEN_BRACE => some "`\x7b`"
  | .CLOSE_BRACE => some "`\x7d`"
  | .TEOF => some "end of file"

/-- The printed form of a token: the text between the backticks of its
`tok_to_str` description (the descriptions of operator and keyword tokens
are exactly the token text wrapped in backticks). -/
def printedForm (kind : TokKind) : List Char :=
  match tok_to_str kind with
  | some s => (s.toList.filter (fun c => c ≠ '\x60'))
  | none => []

/-- The size limits declared in lex.h, which is not under src/ (the spec
fixes only that they are fixed maxima), kept as parameters of `lex`. -/
structure LexLimits where
  maxIdentSize : Nat
  maxStringSize : Nat
  deriving DecidableEq, Repr

/-- `lex` in lex.c: skip whitespace and comments, then dispatch on the
leading character: `'` char literal, `"` string literal, NUL (the appended
sentinel, i.e. end of input) yields the EOF token without advancing,
operator characters, identifier heads, digits, and otherwise a fatal
invalid-token error.  Returns the token, the new scan position and the new
line counter. -/
def lex (lim : LexLimits) (inp : List Char) (pos lineno : Nat)
    : LexOut (Tok × Nat × Nat) :=
  match skipSpaces inp pos lineno with
  | .ok (pos', lineno') =>
    match peek inp pos' with
    | '\'' => lex_char_lit inp pos' lineno'
    | '"' => lex_string_lit lim.maxStringSize inp pos' lineno'
    | '\x00' => .ok (basicTok .TEOF lineno', pos', lineno')
    | c =>
      if is_op_char c then
        lex_op inp pos' lineno'
      else if is_ident_head c then
        lex_ident lim.maxIdentSize inp pos' lineno'
      else if is_dec_digit c then
        lex_num_lit inp pos' lineno'
      else
        .fatal lineno' ("Invalid token `" ++ String.mk [c] ++ "`")
  | .fatal n m => .fatal n m
  | .internalError => .internalError
  | .stuck => .stuck

/-- A concrete instantiation of the lex.h limits, used by the closed
theorems below (their scans never reach either limit, so any positive
values describe the same behaviour). -/
def lim0 : LexLimits := ⟨64, 1024⟩


/-!
## Code generator (src/unnamed/part_002, `code_gen.c`)

The LLVM-C API is modelled by explicit data: `LLVMTypeRef` becomes
`LLVMType`, `LLVMValueRef` becomes `Value` (constants are symbolic constant
expressions, instruction results are numbered SSA ids), and the builder
(`LLVMBuilderRef` plus the current function's block list) becomes
`GenState`.  `LLVMBuildX(builder, ...)` appends an instruction to the block
the builder is positioned at and returns the new instruction's value;
LLVM's `LLVMBuildStore` and `LLVMBuildCondBr` likewise return the
(void-valued) instruction itself, which the model keeps as an ordinary
`Value.instr`.  A NULL builder (constant mode) is the flag `isConst`; the
C functions that would dereference a NULL builder in constant mode are only
exercised by the claims in runtime mode, matching `code_gen.c`'s actual
use.  The C `Vec *` of types and of statements is modelled by the mutual
vector types `TyVec`/`StmtVec`.  The mutual recursion `emit_expr` ⇄
`emit_bin_op_expr` (etc.) is modelled by open recursion: each
`emit_*_expr` takes the function it uses for subexpressions as the
explicit argument `emitSub`, and `emit_expr` ties the knot with a fuel
argument bounded by the expression's depth, so that every definition is
kernel-reducible. -/

mutual
/-- The fully resolved source types of `enum type_kind` (ast.h).  The
`ALIAS_TYPE`/`PARAM_TYPE` kinds are explicitly unresolved placeholders
(their `TODO: Resolve type` cases fall through to the array case, reading a
union member that was never written); they are outside every claim and are
not modelled. -/
inductive Ty where
  | unsizedInt
  | u8 | u16 | u32 | u64
  | i8 | i16 | i32 | i64
  | f32 | f64
  | boolTy | voidTy | charTy
  | array (elem : Ty) (len : Nat)
  | pointer (dest : Ty)
  | tuple (ts : TyVec)
  | func (params : TyVec) (ret : Ty)

/-- A `Vec *` of types (ast.h keeps tuple members and function parameters
in a growable `Vec`). -/
inductive TyVec where
  | nil
  | cons (t : Ty) (ts : TyVec)
end

/-- `vec_len` for a `TyVec`. -/
def TyVec.length : TyVec → Nat
  | .nil => 0
  | .cons _ ts => ts.length + 1

/-- Target types (`LLVMTypeRef`).  `undef tag` stands for the indeterminate
contents of an uninitialized heap slot that is read as a type (see
`get_llvm_type`'s function case). -/
inductive LLVMType where
  | int (width : Nat)
  | float
  | double
  | voidT
  | ptr (dest : LLVMType)
  | structT (fields : List LLVMType)
  | arrayT (elem : LLVMType) (len : Nat)
  | funcT (ret : LLVMType) (params : List LLVMType) (varargs : Bool)
  | undef (tag : Nat)

/-- `get_fat_ptr_type` in code_gen.c: `{ i16, item_type* }`. -/
def get_fat_ptr_type (itemType : LLVMType) : LLVMType :=
  .structT [.int 16, .ptr itemType]

mutual
/-- `get_llvm_type` in code_gen.c.  `uninit` supplies the indeterminate
contents of the `xmalloc`ed `llvm_params` array in the `FUNC_TYPE` case,
which the C function allocates but NEVER fills before handing it to
`LLVMFunctionType` (contrast the `TUPLE_TYPE` case, whose loop fills its
array with the lowered member types); slot `i` of that uninitialized array
is modelled as `uninit i`. -/
def get_llvm_type (uninit : Nat → LLVMType) : Ty → LLVMType
  | .unsizedInt => .int 32
  | .u8 => .int 8
  | .i8 => .int 8
  | .u16 => .int 16
  | .i16 => .int 16
  | .u32 => .int 32
  | .i32 => .int 32
  | .charTy => .int 32
  | .u64 => .int 64
  | .i64 => .int 64
  | .f32 => .float
  | .f64 => .double
  | .boolTy => .int 1
  | .voidTy => .voidT
  | .array elem len =>
    let itemType := get_llvm_type uninit elem
    if len = 0 then get_fat_ptr_type itemType else .arrayT itemType len
  | .pointer dest => .ptr (get_llvm_type uninit dest)
  | .tuple ts => .structT (getLlvmTypeVec uninit ts)
  | .func params ret =>
    .funcT (get_llvm_type uninit ret) ((List.range params.length).map uninit) false
termination_by structural t => t

/-- The filled `llvm_types` array of the `TUPLE_TYPE` case of
`get_llvm_type`: the lowered member types in order. -/
def getLlvmTypeVec (uninit : Nat → LLVMType) : TyVec → List LLVMType
  | .nil => []
  | .cons t ts => get_llvm_type uninit t :: getLlvmTypeVec uninit ts
termination_by structural ts => ts
end

/-- Modelled from the spec: `is_float_type` lives in check_semantics.c,
which is not under src/; the spec says "float type ⇒ floating
instructions" for the two float widths. -/
def is_float_type : Ty → Bool
  | .f32 => true
  | .f64 => true
  | _ => false

/-- Modelled from the spec: `is_unsigned_int_type` lives in
check_semantics.c, which is not under src/; the spec says "unsigned integer
type ⇒ unsigned integer instructions; otherwise ⇒ signed" (the unsized
integer defaults to the signed path). -/
def is_unsigned_int_type : Ty → Bool
  | .u8 => true
  | .u16 => true
  | .u32 => true
  | .u64 => true
  | _ => false

/-- LLVM integer-comparison predicates. -/
inductive IPred where
  | ieq | ine | ult | ule | ugt | uge | slt | sle | sgt | sge
  deriving DecidableEq

/-- LLVM (ordered) float-comparison predicates. -/
inductive FPred where
  | oeq | one | olt | ole | ogt | oge
  deriving DecidableEq

/-- The binary instruction families the emitter uses. -/
inductive BinKind where
  | add | fadd | sub | fsub | mul | fmul
  | udiv | sdiv | fdiv | urem | srem | frem
  | andK | orK | xorK | shl | lshr
  deriving DecidableEq

/-- `LLVMValueRef`: symbolic constants (`LLVMConst*`), numbered instruction
results, and the NULL pointer returned by the TODO stubs. -/
inductive Value where
  | constInt (ty : LLVMType) (val : Nat) (signExtend : Bool)
  | constReal (ty : LLVMType) (text : String)
  | constString (bytes : List Char) (len : Nat) (nullTerminate : Bool)
  | constNeg (v : Value)
  | constNot (v : Value)
  | constBin (k : BinKind) (l r : Value)
  | constICmp (p : IPred) (l r : Value)
  | constFCmp (p : FPred) (l r : Value)
  | instr (id : Nat)
  | vnull

/-- The instructions the emitter builds (names of `LLVMBuildX` calls). -/
inductive Instr where
  | load (src : Value)
  | store (val : Value) (dst : Value)
  | binop (k : BinKind) (l r : Value)
  | icmp (p : IPred) (l r : Value)
  | fcmp (p : FPred) (l r : Value)
  | negI (v : Value)
  | notI (v : Value)
  | alloca (ty : LLVMType) (name : String)
  | br (blk : Nat)
  | condbr (cond : Value) (ifTrue ifFalse : Nat)

/-- Is the instruction a block terminator? -/
def isTerminator : Instr → Bool
  | .br _ => true
  | .condbr _ _ _ => true
  | _ => false

/-- Does a block's instruction sequence end in a terminator (every
well-formed LLVM block must; `compile_module` runs `LLVMVerifyModule` with
`LLVMAbortProcessAction`)? -/
def blockTerminated (instrs : List Instr) : Bool :=
  match instrs.getLast? with
  | some i => isTerminator i
  | none => false

/-- The builder plus the current function: fresh value and block counters,
the function's ordered blocks (id, name, instructions), the block the
builder is positioned at, and the scoped symbol table (innermost binding
first; `code_gen.c` keeps it in the file-level global `sym_tbl`). -/
structure GenState where
  nextVal : Nat
  nextBlk : Nat
  blocks : List (Nat × String × List Instr)
  cur : Nat
  syms : List (String × Value)

/-- Append an instruction to block `b` of the block list. -/
def appendToBlock (bs : List (Nat × String × List Instr)) (b : Nat) (i : Instr)
    : List (Nat × String × List Instr) :=
  bs.map (fun e => if e.1 = b then (e.1, e.2.1, e.2.2 ++ [i]) else e)

/-- The instructions of block `b`. -/
def blockInstrs (st : GenState) (b : Nat) : List Instr :=
  match st.blocks.find? (fun e => e.1 = b) with
  | some e => e.2.2
  | none => []

/-- The state effect of an `LLVMBuildX` call: append the instruction to the
current block and allocate its value id. -/
def addI (st : GenState) (i : Instr) : GenState :=
  { st with nextVal := st.nextVal + 1, blocks := appendToBlock st.blocks st.cur i }

/-- An `LLVMBuildX` call: the new state and the instruction's value. -/
def buildInstr (st : GenState) (i : Instr) : GenState × Value :=
  (addI st i, .instr st.nextVal)

/-- `LLVMAppendBasicBlock`: a fresh empty block at the end of the
function. -/
def appendBasicBlock (st : GenState) (name : String) : GenState × Nat :=
  ({ st with nextBlk := st.nextBlk + 1, blocks := st.blocks ++ [(st.nextBlk, name, [])] },
   st.nextBlk)

/-- `LLVMPositionBuilderAtEnd`. -/
def positionAtEnd (st : GenState) (b : Nat) : GenState :=
  { st with cur := b }

/-- `insert_symbol` into the innermost scope (symbol_table.c is external;
only the insertion order matters to the emitter). -/
def insertSymbol (st : GenState) (name : String) (v : Value) : GenState :=
  { st with syms := (name, v) :: st.syms }

/-- `enum unary_op` of ast.h (the kinds exercised by the emitter). -/
inductive UnaryOp where
  | negOp | preInc | postInc | preDec | postDec | deref | ref | bitNot | logNot
  deriving DecidableEq

/-- `enum bin_op` of ast.h. -/
inductive BinOp where
  | addOp | subOp | mulOp | divOp | modOp
  | ltOp | gtOp | leOp | geOp | eqOp | neOp
  | bitAnd | logAnd | bitOr | logOr | bitXor
  | shiftL | shiftR
  | assign
  | addAssign | subAssign | mulAssign | divAssign | modAssign
  | andAssign | orAssign | xorAssign | shiftLAssign | shiftRAssign
  | fieldOp
  deriving DecidableEq

/-- `struct expr` of ast.h: each node carries its resolved type and a
kind-specific payload.  The kinds the emitter stubs out with `return NULL`
(`LAMBDA_EXPR`, `ARRAY_LIT_EXPR`, `IDENT_EXPR`, `BLOCK_EXPR`, `IF_EXPR`,
`SWITCH_EXPR`, `TUPLE_EXPR`) are collapsed into `stubE`. -/
inductive Expr where
  | boolLit (ty : Ty) (b : Bool)
  | intLit (ty : Ty) (v : Nat)
  | floatLit (ty : Ty) (text : String)
  | charLit (ty : Ty) (code : Nat)
  | stringLit (ty : Ty) (bytes : List Char) (len : Nat)
  | unary (ty : Ty) (op : UnaryOp) (operand : Expr)
  | binE (ty : Ty) (op : BinOp) (l r : Expr)
  | stubE (ty : Ty)

/-- Nesting depth of an expression: the fuel bound for `emit_expr`'s
open-recursion knot. -/
def Expr.depth : Expr → Nat
  | .unary _ _ operand => operand.depth + 1
  | .binE _ _ l r => max l.depth r.depth + 1
  | _ => 1

/-- `emit_add` in code_gen.c. -/
def emit_add (isConst : Bool) (st : GenState) (l r : Value) (ty : Ty)
    : GenState × Value :=
  if isConst then
    if is_float_type ty then (st, .constBin .fadd l r) else (st, .constBin .add l r)
  else
    if is_float_type ty then buildInstr st (.binop .fadd l r)
    else buildInstr st (.binop .add l r)

/-- `emit_sub` in code_gen.c. -/
def emit_sub (isConst : Bool) (st : GenState) (l r : Value) (ty : Ty)
    : GenState × Value :=
  if isConst then
    if is_float_type ty then (st, .constBin .fsub l r) else (st, .constBin .sub l r)
  else
    if is_float_type ty then buildInstr st (.binop .fsub l r)
    else buildInstr st (.binop .sub l r)

/-- `emit_mul` in code_gen.c. -/
def emit_mul (isConst : Bool) (st : GenState) (l r : Value) (ty : Ty)
    : GenState × Value :=
  if isConst then
    if is_float_type ty then (st, .constBin .fmul l r) else (st, .constBin .mul l r)
  else
    if is_float_type ty then buildInstr st (.binop .fmul l r)
    else buildInstr st (.binop .mul l r)

/-- `emit_div` in code_gen.c: float / unsigned / signed division selected
by the expression's static type. -/
def emit_div (isConst : Bool) (st : GenState) (l r : Value) (ty : Ty)
    : GenState × Value :=
  if isConst then
    if is_float_type ty then (st, .constBin .fdiv l r)
    else if is_unsigned_int_type ty then (st, .constBin .udiv l r)
    else (st, .constBin .sdiv l r)
  else
    if is_float_type ty then buildInstr st (.binop .fdiv l r)
    else if is_unsigned_int_type ty then buildInstr st (.binop .udiv l r)
    else buildInstr st (.binop .sdiv l r)

/-- `emit_mod` in code_gen.c. -/
def emit_mod (isConst : Bool) (st : GenState) (l r : Value) (ty : Ty)
    : GenState × Value :=
  if isConst then
    if is_float_type ty then (st, .constBin .frem l r)
    else if is_unsigned_int_type ty then (st, .constBin .urem l r)
    else (st, .constBin .srem l r)
  else
    if is_float_type ty then buildInstr st (.binop .frem l r)
    else if is_unsigned_int_type ty then buildInstr st (.binop .urem l r)
    else buildInstr st (.binop .srem l r)

/-- `emit_lt`, `emit_gt`, `emit_le` and `emit_ge` in code_gen.c share this
shape; `fp`/`up`/`sp` are the operator's float/unsigned/signed
predicates. -/
def emitCmp (isConst : Bool) (st : GenState) (l r : Value) (ty : Ty)
    (fp : FPred) (up sp : IPred) : GenState × Value :=
  if isConst then
    if is_float_type ty then (st, .constFCmp fp l r)
    else if is_unsigned_int_type ty then (st, .constICmp up l r)
    else (st, .constICmp sp l r)
  else
    if is_float_type ty then buildInstr st (.fcmp fp l r)
    else if is_unsigned_int_type ty then buildInstr st (.icmp up l r)
    else buildInstr st (.icmp sp l r)

/-- `emit_eq`/`emit_ne` in code_gen.c: only a float/integer split. -/
def emitEqNe (isConst : Bool) (st : GenState) (l r : Value) (ty : Ty)
    (fp : FPred) (ip : IPred) : GenState × Value :=
  if isConst then
    if is_float_type ty then (st, .constFCmp fp l r) else (st, .constICmp ip l r)
  else
    if is_float_type ty then buildInstr st (.fcmp fp l r)
    else buildInstr st (.icmp ip l r)

/-- `is_assignment` in code_gen.c. -/
def is_assignment : BinOp → Bool
  | .assign => true
  | .addAssign => true
  | .subAssign => true
  | .mulAssign => true
  | .divAssign => true
  | .modAssign => true
  | .andAssign => true
  | .orAssign => true
  | .xorAssign => true
  | .shiftLAssign => true
  | .shiftRAssign => true
  | _ => false

/-- `emit_inc_or_dec_expr` in code_gen.c: `emitSub` is the `emit_expr` it
uses on the (addressable) operand; load the old value, add or subtract the
constant one, store the new value back through the same pointer, and yield
the new (prefix) or old (postfix) value. -/
def emit_inc_or_dec_expr (emitSub : GenState → Expr → GenState × Value)
    (uninit : Nat → LLVMType) (st : GenState) (ty : Ty) (op : UnaryOp)
    (operand : Expr) : GenState × Value :=
  let (st1, ptrVal) := emitSub st operand
  let llvmType := get_llvm_type uninit ty
  let isSigned := !is_unsigned_int_type ty
  let isInc := op matches .preInc | .postInc
  let isPrefix := op matches .preInc | .preDec
  let (st2, oldVal) := buildInstr st1 (.load ptrVal)
  let oneVal : Value := .constInt llvmType 1 isSigned
  let (st3, newVal) :=
    if isInc then buildInstr st2 (.binop .add oldVal oneVal)
    else buildInstr st2 (.binop .sub oldVal oneVal)
  let st4 := (buildInstr st3 (.store newVal ptrVal)).1
  (st4, if isPrefix then newVal else oldVal)

/-- `emit_unary_op_expr` in code_gen.c.  Note that the C function emits
the operand once at entry (`operand = emit_expr(...)`) and that its
increment/decrement case then calls `emit_inc_or_dec_expr`, which emits the
same operand expression a second time. -/
def emit_unary_op_expr (emitSub : GenState → Expr → GenState × Value)
    (uninit : Nat → LLVMType) (isConst : Bool) (st : GenState) (ty : Ty)
    (op : UnaryOp) (operandExpr : Expr) : GenState × Value :=
  let (st1, operand) := emitSub st operandExpr
  let llvmType := get_llvm_type uninit ty
  match op with
  | .negOp =>
    if isConst then (st1, .constNeg operand) else buildInstr st1 (.negI operand)
  | .preInc | .postInc | .preDec | .postDec =>
    emit_inc_or_dec_expr emitSub uninit st1 ty op operandExpr
  | .deref => buildInstr st1 (.load operand)
  | .ref => (st1, operand)
  | .bitNot =>
    if isConst then (st1, .constNot operand) else buildInstr st1 (.notI operand)
  | .logNot =>
    let zeroVal : Value := .constInt llvmType 0 false
    if isConst then (st1, .constICmp .ieq operand zeroVal)
    else buildInstr st1 (.icmp .ieq operand zeroVal)

/-- `emit_bin_op_expr` in code_gen.c: emit both operands, then (for every
assignment operator, the plain one included) load the current value through
the left value, dispatch on the operator, and for compound assignments
store the freshly computed value back through the left value, RETURNING THE
STORE INSTRUCTION itself (`return LLVMBuildStore(...)`). -/
def emit_bin_op_expr (emitSub : GenState → Expr → GenState × Value)
    (isConst : Bool) (st0 : GenState) (ty : Ty) (op : BinOp) (le re : Expr)
    : GenState × Value :=
  let (st1, l) := emitSub st0 le
  let (st2, r) := emitSub st1 re
  let (st3, oldVal) :=
    if is_assignment op then buildInstr st2 (.load l) else (st2, Value.vnull)
  match op with
  | .addOp => emit_add isConst st3 l r ty
  | .subOp => emit_sub isConst st3 l r ty
  | .mulOp => emit_mul isConst st3 l r ty
  | .divOp => emit_div isConst st3 l r ty
  | .modOp => emit_mod isConst st3 l r ty
  | .ltOp => emitCmp isConst st3 l r ty .olt .ult .slt
  | .gtOp => emitCmp isConst st3 l r ty .ogt .ugt .sgt
  | .leOp => emitCmp isConst st3 l r ty .ole .ule .sle
  | .geOp => emitCmp isConst st3 l r ty .oge .uge .sge
  | .eqOp => emitEqNe isConst st3 l r ty .oeq .ieq
  | .neOp => emitEqNe isConst st3 l r ty .one .ine
  | .bitAnd | .logAnd =>
    if isConst then (st3, .constBin .andK l r) else buildInstr st3 (.binop .andK l r)
  | .bitOr | .logOr =>
    if isConst then (st3, .constBin .orK l r) else buildInstr st3 (.binop .orK l r)
  | .bitXor =>
    if isConst then (st3, .constBin .xorK l r) else buildInstr st3 (.binop .xorK l r)
  | .shiftL =>
    if isConst then (st3, .constBin .shl l r) else buildInstr st3 (.binop .shl l r)
  | .shiftR =>
    if isConst then (st3, .constBin .lshr l r) else buildInstr st3 (.binop .lshr l r)
  | .assign => buildInstr st3 (.store r l)
  | .addAssign =>
    let (st4, newVal) := emit_add isConst st3 oldVal r ty
    buildInstr st4 (.store newVal l)
  | .subAssign =>
    let (st4, newVal) := emit_sub isConst st3 oldVal r ty
    buildInstr st4 (.store newVal l)
  | .mulAssign =>
    let (st4, newVal) := emit_mul isConst st3 oldVal r ty
    buildInstr st4 (.store newVal l)
  | .divAssign =>
    let (st4, newVal) := emit_div isConst st3 oldVal r ty
    buildInstr st4 (.store newVal l)
  | .modAssign =>
    let (st4, newVal) := emit_mod isConst st3 oldVal r ty
    buildInstr st4 (.store newVal l)
  | .andAssign =>
    let (st4, newVal) := buildInstr st3 (.binop .andK oldVal r)
    buildInstr st4 (.store newVal l)
  | .orAssign =>
    let (st4, newVal) := buildInstr st3 (.binop .orK oldVal r)
    buildInstr st4 (.store newVal l)
  | .xorAssign =>
    let (st4, newVal) := buildInstr st3 (.binop .xorK oldVal r)
    buildInstr st4 (.store newVal l)
  | .shiftLAssign =>
    let (st4, newVal) := buildInstr st3 (.binop .shl oldVal r)
    buildInstr st4 (.store newVal l)
  | .shiftRAssign =>
    let (st4, newVal) := buildInstr st3 (.binop .lshr oldVal r)
    buildInstr st4 (.store newVal l)
  | .fieldOp => (st3, .vnull)

/-- `emit_expr` in code_gen.c (fuelled knot of the open recursion; the
wrapper `emit_expr` below supplies the always-sufficient fuel
`Expr.depth`).  The C function computes `llvm_type = get_llvm_type(...)`
once at entry; it is consulted in the literal cases. -/
def emitExprF (uninit : Nat → LLVMType) (isConst : Bool) :
    Nat → GenState → Expr → GenState × Value
  | 0, st, _ => (st, .vnull)
  | fuel + 1, st, e =>
    match e with
    | .boolLit ty b => (st, .constInt (get_llvm_type uninit ty) (if b then 1 else 0) false)
    | .intLit ty v => (st, .constInt (get_llvm_type uninit ty) v false)
    | .floatLit ty text => (st, .constReal (get_llvm_type uninit ty) text)
    | .charLit ty code => (st, .constInt (get_llvm_type uninit ty) code false)
    | .stringLit _ bytes len => (st, .constString bytes len true)
    | .unary ty op operand =>
      emit_unary_op_expr (emitExprF uninit isConst fuel) uninit isConst st ty op operand
    | .binE ty op l r =>
      emit_bin_op_expr (emitExprF uninit isConst fuel) isConst st ty op l r
    | .stubE _ => (st, .vnull)

/-- `emit_expr` in code_gen.c. -/
def emit_expr (uninit : Nat → LLVMType) (isConst : Bool) (st : GenState)
    (e : Expr) : GenState × Value :=
  emitExprF uninit isConst e.depth st e

/-- `emit_const_expr` in code_gen.c: `emit_expr` with a NULL builder. -/
def emit_const_expr (uninit : Nat → LLVMType) (st : GenState) (e : Expr)
    : GenState × Value :=
  emit_expr uninit true st e

mutual
/-- `struct stmt` of ast.h: the statement kinds `emit_stmt` dispatches on.
`WHILE_STMT` and `FOR_STMT` are explicit `TODO` no-ops in `emit_stmt`;
their payloads are irrelevant to every claim and are not modelled. -/
inductive Stmt where
  | declS (ty : Ty) (name : String) (init : Option Expr)
  | exprS (e : Expr)
  | ifS (cond : Expr) (thenStmts elseStmts : StmtVec)
  | doS (body : StmtVec) (cond : Expr)
  | whileS
  | forS

/-- A `Vec *` of statements (branch and loop bodies). -/
inductive StmtVec where
  | nil
  | cons (s : Stmt) (ss : StmtVec)
end

mutual
/-- Nesting depth of a statement (fuel bound for `emit_stmt`'s
open-recursion knot). -/
def Stmt.depth : Stmt → Nat
  | .ifS _ thenStmts elseStmts => max thenStmts.depth elseStmts.depth + 1
  | .doS body _ => body.depth + 1
  | _ => 1
termination_by structural s => s

/-- Maximum nesting depth of a statement vector (see `Stmt.depth`). -/
def StmtVec.depth : StmtVec → Nat
  | .nil => 0
  | .cons s ss => max s.depth ss.depth
termination_by structural ss => ss
end

/-- `emit_local_val` in code_gen.c: alloca a named slot, store the emitted
initializer when present, and bind the name. -/
def emit_local_val (uninit : Nat → LLVMType) (st : GenState) (ty : Ty)
    (name : String) (init : Option Expr) : GenState :=
  let (st1, localPtr) := buildInstr st (.alloca (get_llvm_type uninit ty) name)
  let st2 :=
    match init with
    | some e =>
      let (st1', v) := emit_expr uninit false st1 e
      (buildInstr st1' (.store v localPtr)).1
    | none => st1
  insertSymbol st2 name localPtr

/-- `emit_if_stmt` in code_gen.c: emit the condition, append the
then/else/merge blocks, conditionally branch into then or else, fill each
branch and terminate both with a branch to merge, and leave the builder at
merge.  `emitStmtsSub` is the `emit_stmts` used for the branch bodies. -/
def emit_if_stmt (emitStmtsSub : GenState → StmtVec → GenState)
    (uninit : Nat → LLVMType) (st : GenState) (cond : Expr)
    (thenStmts elseStmts : StmtVec) : GenState :=
  let (st1, condVal) := emit_expr uninit false st cond
  let (st2, thenBlock) := appendBasicBlock st1 "then"
  let (st3, elseBlock) := appendBasicBlock st2 "else"
  let (st4, mergeBlock) := appendBasicBlock st3 "merge"
  let st5 := (buildInstr st4 (.condbr condVal thenBlock elseBlock)).1
  let st6 := positionAtEnd st5 thenBlock
  let st7 := emitStmtsSub st6 thenStmts
  let st8 := (buildInstr st7 (.br mergeBlock)).1
  let st9 := positionAtEnd st8 elseBlock
  let st10 := emitStmtsSub st9 elseStmts
  let st11 := (buildInstr st10 (.br mergeBlock)).1
  positionAtEnd st11 mergeBlock

/-- `emit_do_stmt` in code_gen.c, statement for statement: the condition is
emitted FIRST, into whatever block the builder is currently positioned at;
then the `do` and `after_do` blocks are appended, the builder moves to the
`do` block WITHOUT terminating the previous block, the body is emitted, and
the single conditional branch (on the pre-computed condition value) targets
`do` when true and `after_do` when false.  `emitStmtsSub` is the
`emit_stmts` used for the body. -/
def emit_do_stmt (emitStmtsSub : GenState → StmtVec → GenState)
    (uninit : Nat → LLVMType) (st : GenState) (body : StmtVec) (cond : Expr)
    : GenState :=
  let (st1, condVal) := emit_expr uninit false st cond
  let (st2, doBlock) := appendBasicBlock st1 "do"
  let (st3, afterDoBlock) := appendBasicBlock st2 "after_do"
  let st4 := positionAtEnd st3 doBlock
  let st5 := emitStmtsSub st4 body
  let st6 := (buildInstr st5 (.condbr condVal doBlock afterDoBlock)).1
  positionAtEnd st6 afterDoBlock

/-- The loop of `emit_stmts` in code_gen.c, with the statement emitter as
an explicit argument. -/
def emitStmtsAux (emitS : GenState → Stmt → GenState) :
    GenState → StmtVec → GenState
  | st, .nil => st
  | st, .cons s ss => emitStmtsAux emitS (emitS st s) ss

/-- `emit_stmt` in code_gen.c (fuelled knot of the open recursion; the
wrapper `emit_stmt` below supplies the always-sufficient fuel
`Stmt.depth`).  `WHILE_STMT` and `FOR_STMT` are TODO no-ops. -/
def emitStmtF (uninit : Nat → LLVMType) : Nat → GenState → Stmt → GenState
  | 0, st, _ => st
  | fuel + 1, st, s =>
    match s with
    | .declS ty name init => emit_local_val uninit st ty name init
    | .exprS e => (emit_expr uninit false st e).1
    | .ifS cond thenStmts elseStmts =>
      emit_if_stmt (emitStmtsAux (emitStmtF uninit fuel)) uninit st cond
        thenStmts elseStmts
    | .doS body cond =>
      emit_do_stmt (emitStmtsAux (emitStmtF uninit fuel)) uninit st body cond
    | .whileS => st
    | .forS => st

/-- `emit_stmt` in code_gen.c. -/
def emit_stmt (uninit : Nat → LLVMType) (st : GenState) (s : Stmt) : GenState :=
  emitStmtF uninit s.depth st s

/-- `emit_stmts` in code_gen.c. -/
def emit_stmts (uninit : Nat → LLVMType) (st : GenState) (ss : StmtVec)
    : GenState :=
  emitStmtsAux (emit_stmt uninit) st ss

/-!
## Auxiliary notions used by the theorem statements
-/

/-- Count the newline bytes at positions `[a, a + fuel)` of the buffer
(`peek` yields NUL, never `'\n'`, past the end). -/
def nlCountF (inp : List Char) : Nat → Nat → Nat
  | 0, _ => 0
  | fuel + 1, a => (if peek inp a = '\n' then 1 else 0) + nlCountF inp fuel (a + 1)

/-- The number of newline bytes of the buffer at positions `[a, b)`. -/
def nlCount (inp : List Char) (a b : Nat) : Nat :=
  nlCountF inp (b - a) a

/-- The basic-operator token kinds that `lex_op` can actually produce (every
`init_basic_tok` target reachable from its switch). -/
def producedOpKinds : List TokKind :=
  [.PLUS_PLUS, .MINUS_MINUS, .PLUS, .MINUS, .STAR, .SLASH, .PERCENT,
   .LT, .GT, .LT_EQ, .GT_EQ, .EQ_EQ, .BANG_EQ,
   .AMP, .PIPE, .CARET, .TILDE, .LT_LT, .GT_GT, .AMP_AMP, .PIPE_PIPE,
   .BANG, .EQ,
   .PLUS_EQ, .MINUS_EQ, .STAR_EQ, .SLASH_EQ, .PERCENT_EQ,
   .AMP_EQ, .PIPE_EQ, .CARET_EQ,
   .DOT, .COLON, .SEMICOLON, .COMMA,
   .OPEN_BRACKET, .CLOSE_BRACKET, .OPEN_PAREN, .CLOSE_PAREN,
   .OPEN_BRACE, .CLOSE_BRACE]

/-- The compound-assignment operators. -/
def compoundAssignOps : List BinOp :=
  [.addAssign, .subAssign, .mulAssign, .divAssign, .modAssign,
   .andAssign, .orAssign, .xorAssign, .shiftLAssign, .shiftRAssign]

/-- The instruction `emit_bin_op_expr` builds for the read-modify-write
middle step of each compound assignment, by the C dispatch: add/sub/mul
split on float vs integer, div/mod split on float/unsigned/signed, and the
bitwise/shift assignments use their single instruction (`>>=` is always the
logical shift `lshr`).  (The default branch is never reached for a
compound-assignment operator.) -/
def compoundRhsInstr (op : BinOp) (ty : Ty) (oldVal r : Value) : Instr :=
  match op with
  | .addAssign =>
    if is_float_type ty then .binop .fadd oldVal r else .binop .add oldVal r
  | .subAssign =>
    if is_float_type ty then .binop .fsub oldVal r else .binop .sub oldVal r
  | .mulAssign =>
    if is_float_type ty then .binop .fmul oldVal r else .binop .mul oldVal r
  | .divAssign =>
    if is_float_type ty then .binop .fdiv oldVal r
    else if is_unsigned_int_type ty then .binop .udiv oldVal r
    else .binop .sdiv oldVal r
  | .modAssign =>
    if is_float_type ty then .binop .frem oldVal r
    else if is_unsigned_int_type ty then .binop .urem oldVal r
    else .binop .srem oldVal r
  | .andAssign => .binop .andK oldVal r
  | .orAssign => .binop .orK oldVal r
  | .xorAssign => .binop .xorK oldVal r
  | .shiftLAssign => .binop .shl oldVal r
  | .shiftRAssign => .binop .lshr oldVal r
  | _ => .binop .add oldVal r

/-- A junk oracle for uninitialized memory: slot `i` reads as the
indeterminate type `undef i`. -/
def junkU : Nat → LLVMType := fun n => .undef n

/-- A builder freshly positioned in an empty entry block (id 0), as at the
start of a function body. -/
def entrySt : GenState := ⟨0, 1, [(0, "entry", [])], 0, []⟩

/-- A concrete do-while body: the single statement `-5;`. -/
def doBodyC1 : StmtVec := .cons (.exprS (.unary .i32 .negOp (.intLit .i32 5))) .nil

/-- A concrete do-while condition: the runtime comparison `1 < 2` (of bool
type, emitting one `icmp`). -/
def doCondC1 : Expr := .binE .boolTy .ltOp (.intLit .i32 1) (.intLit .i32 2)

/-- A concrete compound assignment `a += 5` at unsigned type `U32`, whose
left operand is an addressable expression (modelled by the identifier stub,
which emits no instructions). -/
def addAssignC2 : Expr := .binE .u32 .addAssign (.stubE (.pointer .u32)) (.intLit .u32 5)

/-!
## Supporting lemmas
-/

/-- Reading at or past the end of the buffer yields the NUL sentinel. -/
lemma peek_eq_nul (inp : List Char) (pos : Nat) (h : inp.length ≤ pos) :
    peek inp pos = nulChar := by
  unfold peek List.getD
  rw [List.get?_eq_none.mpr h]
  rfl

/-- Reading at the boundary of a decomposed buffer. -/
lemma peek_append_cons (pre : List Char) (c : Char) (t : List Char) :
    peek (pre ++ c :: t) pre.length = c := by
  induction pre with
  | nil => rfl
  | cons a l ih => simpa [peek, List.getD] using ih

/-- `skip_spaces` stops immediately on a non-space, non-slash character. -/
lemma skipSpacesF_stop (fuel : Nat) (inp : List Char) (pos lineno : Nat)
    (h1 : isSpaceC (peek inp pos) = false) (h2 : peek inp pos ≠ '/') :
    skipSpacesF (fuel + 1) inp pos lineno = .ok (pos, lineno) := by
  simp [skipSpacesF, h1, h2]

/-- The NUL sentinel is not a digit in any base the scanner uses. -/
lemma isValidDigit_nul (base : Nat)
    (hbase : base = 2 ∨ base = 8 ∨ base = 10 ∨ base = 16) :
    isValidDigit base nulChar = false := by
  rcases hbase with h | h | h | h <;> subst h <;> decide

/-- Digits are never the radix point. -/
lemma isValidDigit_ne_dot (base : Nat)
    (hbase : base = 2 ∨ base = 8 ∨ base = 10 ∨ base = 16) (c : Char)
    (hc : isValidDigit base c = true) : c ≠ '.' := by
  intro heq
  subst heq
  rcases hbase with h | h | h | h <;> subst h <;> exact absurd hc (by decide)

/-- The digit-accumulation loop of `lex_num_lit_with_base`, run on a
buffer whose remainder is exactly a nonempty run of valid digits, consumes
them all and returns them appended to the accumulator. -/
lemma numLitLoopF_digits (base : Nat)
    (hbase : base = 2 ∨ base = 8 ∨ base = 10 ∨ base = 16) :
    ∀ (ds : List Char), (∀ c ∈ ds, isValidDigit base c = true) →
    ∀ (pre acc : List Char) (fr : Bool) (lineno fuel : Nat),
    ds.length < fuel →
    acc.length + ds.length ≤ MAX_NUM_CHARS →
    numLitLoopF base fuel (pre ++ ds) pre.length lineno acc fr =
      .ok (acc ++ ds, fr, pre.length + ds.length) := by
  intro ds
  induction ds with
  | nil =>
    intro hv pre acc fr lineno fuel hfuel hlen
    obtain ⟨f, rfl⟩ : ∃ f, fuel = f + 1 := ⟨fuel - 1, by omega⟩
    rw [List.append_nil]
    have hnul : peek pre pre.length = nulChar := peek_eq_nul _ _ (le_refl _)
    simp [numLitLoopF, hnul, isValidDigit_nul base hbase,
      show nulChar ≠ '.' by decide]
  | cons c t ih =>
    intro hv pre acc fr lineno fuel hfuel hlen
    obtain ⟨f, rfl⟩ : ∃ f, fuel = f + 1 := ⟨fuel - 1, by omega⟩
    have hc : isValidDigit base c = true := hv c (by simp)
    have hcdot : c ≠ '.' := isValidDigit_ne_dot base hbase c hc
    have hpk : peek (pre ++ c :: t) pre.length = c := peek_append_cons pre c t
    have hlen2 : ¬ ((acc ++ [c]).length = MAX_NUM_CHARS + 1) := by
      simp [MAX_NUM_CHARS] at hlen ⊢
      omega
    have hstep := ih (fun x hx => hv x (by simp [hx])) (pre ++ [c]) (acc ++ [c])
      fr lineno f (by simp at hfuel ⊢; omega) (by simp at hlen ⊢; omega)
    simp only [numLitLoopF, hpk, hc, Bool.true_or, if_true, hcdot, if_neg hlen2]
    simp only [List.append_assoc, List.singleton_append, List.length_append,
      List.length_cons, List.length_nil] at hstep ⊢
    simp [hcdot, hstep, Nat.add_comm, Nat.add_assoc, Nat.add_left_comm]

/-- Splitting the newline count at a fuel boundary. -/
lemma nlCountF_append (inp : List Char) :
    ∀ (m n a : Nat), nlCountF inp (m + n) a = nlCountF inp m a + nlCountF inp n (a + m) := by
  intro m
  induction m with
  | zero => intro n a; simp [nlCountF]
  | succ k ih =>
    intro n a
    rw [show k + 1 + n = (k + n) + 1 by omega]
    simp only [nlCountF, ih]
    rw [show a + 1 + k = a + (k + 1) by omega]
    omega

/-- Peeling the first position off a newline count. -/
lemma nlCount_step (inp : List Char) (a b : Nat) (h : a < b) :
    nlCount inp a b = (if peek inp a = '\n' then 1 else 0) + nlCount inp (a + 1) b := by
  unfold nlCount
  rw [show b - a = (b - (a + 1)) + 1 by omega]
  rfl

/-- An empty range has no newlines. -/
lemma nlCount_self (inp : List Char) (a : Nat) : nlCount inp a a = 0 := by
  simp [nlCount, nlCountF]

/-- Newline counts over adjacent ranges add. -/
lemma nlCount_split (inp : List Char) {a b c : Nat} (h1 : a ≤ b) (h2 : b ≤ c) :
    nlCount inp a c = nlCount inp a b + nlCount inp b c := by
  unfold nlCount
  rw [show c - a = (b - a) + (c - b) by omega, nlCountF_append,
    show a + (b - a) = b by omega]

/-- Newline bookkeeping of the line-comment skipper: on success the line
counter advances by exactly the newlines consumed. -/
lemma skipLineCommentF_nl :
    ∀ (fuel : Nat) (inp : List Char) (pos lineno pos' lineno' : Nat),
    skipLineCommentF fuel inp pos lineno = .ok (pos', lineno') →
    pos ≤ pos' ∧ lineno' = lineno + nlCount inp pos pos' := by
  intro fuel
  induction fuel with
  | zero =>
    intro inp pos lineno pos' lineno' h
    exact absurd h (by simp [skipLineCommentF])
  | succ f ih =>
    intro inp pos lineno pos' lineno' h
    by_cases hn : peek inp pos = '\n'
    · rw [skipLineCommentF, if_pos hn] at h
      unfold inc_lineno at h
      by_cases hmax : lineno = MAX_LINENO
      · rw [if_pos hmax] at h
        exact absurd h (by simp)
      · rw [if_neg hmax] at h
        simp only [LexOut.ok.injEq, Prod.mk.injEq] at h
        obtain ⟨rfl, rfl⟩ := h
        refine ⟨by omega, ?_⟩
        rw [nlCount_step _ _ _ (by omega), if_pos hn, nlCount_self]
    · by_cases hnul : peek inp pos = nulChar
      · rw [skipLineCommentF, if_neg hn, if_pos hnul] at h
        exact absurd h (by simp)
      · rw [skipLineCommentF, if_neg hn, if_neg hnul] at h
        obtain ⟨h1, h2⟩ := ih inp (pos + 1) lineno pos' lineno' h
        refine ⟨by omega, ?_⟩
        rw [nlCount_step _ _ _ (show pos < pos' by omega), if_neg hn]
        omega

/-- Newline bookkeeping of the block-comment skipper. -/
lemma skipBlockCommentF_nl :
    ∀ (fuel : Nat) (inp : List Char) (pos lineno pos' lineno' : Nat),
    skipBlockCommentF fuel inp pos lineno = .ok (pos', lineno') →
    pos ≤ pos' ∧ lineno' = lineno + nlCount inp pos pos' := by
  intro fuel
  induction fuel with
  | zero =>
    intro inp pos lineno pos' lineno' h
    exact absurd h (by simp [skipBlockCommentF])
  | succ f ih =>
    intro inp pos lineno pos' lineno' h
    rw [skipBlockCommentF] at h
    by_cases hstar : (peek inp pos = '*' && peek inp (pos + 1) = '/') = true
    · rw [if_pos hstar] at h
      simp only [Bool.and_eq_true, decide_eq_true_eq] at hstar
      obtain ⟨hs1, hs2⟩ := hstar
      simp only [LexOut.ok.injEq, Prod.mk.injEq] at h
      obtain ⟨rfl, rfl⟩ := h
      refine ⟨by omega, ?_⟩
      rw [nlCount_step _ _ _ (by omega), nlCount_step _ _ _ (by omega), nlCount_self,
        if_neg (by rw [hs1]; decide), if_neg (by rw [hs2]; decide)]
      omega
    · rw [if_neg hstar] at h
      by_cases hn : peek inp pos = '\n'
      · rw [if_pos hn] at h
        unfold inc_lineno at h
        by_cases hmax : lineno = MAX_LINENO
        · rw [if_pos hmax] at h
          exact absurd h (by simp)
        · rw [if_neg hmax] at h
          simp only [if_neg (show ¬ peek inp pos = nulChar by rw [hn]; decide)] at h
          obtain ⟨h1, h2⟩ := ih inp (pos + 1) (lineno + 1) pos' lineno' h
          refine ⟨by omega, ?_⟩
          rw [nlCount_step _ _ _ (show pos < pos' by omega), if_pos hn]
          omega
      · rw [if_neg hn] at h
        by_cases hnul : peek inp pos = nulChar
        · simp only [if_pos hnul] at h
          exact absurd h (by simp)
        · simp only [if_neg hnul] at h
          obtain ⟨h1, h2⟩ := ih inp (pos + 1) lineno pos' lineno' h
          refine ⟨by omega, ?_⟩
          rw [nlCount_step _ _ _ (show pos < pos' by omega), if_neg hn]
          omega

/-- Newline bookkeeping of `skip_spaces`: on success the line counter
advances by exactly the newlines consumed (in whitespace, line comments
and block comments). -/
lemma skipSpacesF_nl :
    ∀ (fuel : Nat) (inp : List Char) (pos lineno pos' lineno' : Nat),
    skipSpacesF fuel inp pos lineno = .ok (pos', lineno') →
    pos ≤ pos' ∧ lineno' = lineno + nlCount inp pos pos' := by
  intro fuel
  induction fuel with
  | zero =>
    intro inp pos lineno pos' lineno' h
    exact absurd h (by simp [skipSpacesF])
  | succ f ih =>
    intro inp pos lineno pos' lineno' h
    rw [skipSpacesF] at h
    by_cases hsp : isSpaceC (peek inp pos) = true
    · rw [if_pos hsp] at h
      by_cases hn : peek inp pos = '\n'
      · rw [if_pos hn] at h
        unfold inc_lineno at h
        by_cases hmax : lineno = MAX_LINENO
        · rw [if_pos hmax] at h
          exact absurd h (by simp)
        · rw [if_neg hmax] at h
          obtain ⟨h1, h2⟩ := ih inp (pos + 1) (lineno + 1) pos' lineno' h
          refine ⟨by omega, ?_⟩
          rw [nlCount_step _ _ _ (show pos < pos' by omega), if_pos hn]
          omega
      · rw [if_neg hn] at h
        obtain ⟨h1, h2⟩ := ih inp (pos + 1) lineno pos' lineno' h
        refine ⟨by omega, ?_⟩
        rw [nlCount_step _ _ _ (show pos < pos' by omega), if_neg hn]
        omega
    · rw [if_neg hsp] at h
      by_cases hlc : (peek inp pos = '/' && peek inp (pos + 1) = '/') = true
      · rw [if_pos hlc] at h
        simp only [Bool.and_eq_true, decide_eq_true_eq] at hlc
        rcases hrun : skipLineCommentF f inp (pos + 2) lineno with ⟨p1, l1⟩ | ⟨n, m⟩ | _ | _ <;>
          rw [hrun] at h
        · obtain ⟨hc1, hc2⟩ := skipLineCommentF_nl f inp (pos + 2) lineno p1 l1 hrun
          obtain ⟨h1, h2⟩ := ih inp p1 l1 pos' lineno' h
          refine ⟨by omega, ?_⟩
          rw [nlCount_split inp (show pos ≤ pos + 2 by omega) (show pos + 2 ≤ pos' by omega),
            nlCount_split inp (show pos + 2 ≤ p1 by omega) (show p1 ≤ pos' by omega),
            nlCount_step _ _ _ (show pos < pos + 2 by omega),
            nlCount_step _ _ _ (show pos + 1 < pos + 2 by omega), nlCount_self,
            if_neg (by rw [hlc.1]; decide), if_neg (by rw [hlc.2]; decide)]
          omega
        · simp at h
        · simp at h
        · simp at h
      · rw [if_neg hlc] at h
        by_cases hbc : (peek inp pos = '/' && peek inp (pos + 1) = '*') = true
        · rw [if_pos hbc] at h
          simp only [Bool.and_eq_true, decide_eq_true_eq] at hbc
          rcases hrun : skipBlockCommentF f inp (pos + 2) lineno with ⟨p1, l1⟩ | ⟨n, m⟩ | _ | _ <;>
            rw [hrun] at h
          · obtain ⟨hc1, hc2⟩ := skipBlockCommentF_nl f inp (pos + 2) lineno p1 l1 hrun
            obtain ⟨h1, h2⟩ := ih inp p1 l1 pos' lineno' h
            refine ⟨by omega, ?_⟩
            rw [nlCount_split inp (show pos ≤ pos + 2 by omega) (show pos + 2 ≤ pos' by omega),
              nlCount_split inp (show pos + 2 ≤ p1 by omega) (show p1 ≤ pos' by omega),
              nlCount_step _ _ _ (show pos < pos + 2 by omega),
              nlCount_step _ _ _ (show pos + 1 < pos + 2 by omega), nlCount_self,
              if_neg (by rw [hbc.1]; decide), if_neg (by rw [hbc.2]; decide)]
            omega
          · simp at h
          · simp at h
          · simp at h
        · rw [if_neg hbc] at h
          simp only [LexOut.ok.injEq, Prod.mk.injEq] at h
          obtain ⟨rfl, rfl⟩ := h
          exact ⟨le_refl _, by simp [nlCount_self]⟩

/-- The string-literal scanner never touches the line counter: a
successful scan returns it unchanged. -/
lemma lex_string_lit_lineno (maxS : Nat) (inp : List Char) (pos lineno : Nat)
    (tok : Tok) (pos' lineno' : Nat)
    (h : lex_string_lit maxS inp pos lineno = .ok (tok, pos', lineno')) :
    lineno' = lineno := by
  unfold lex_string_lit at h
  rcases hrun : stringCopyLoopF maxS (lexFuel inp) inp (pos + 1) lineno [] 0 with
    ⟨text, len, p⟩ | ⟨n, m⟩ | _ | _ <;> rw [hrun] at h
  · by_cases hv : is_valid_utf8 text = true
    · simp only [if_pos hv, LexOut.ok.injEq, Prod.mk.injEq] at h
      exact h.2.2.symm
    · simp only [if_neg hv] at h
      exact absurd h (by simp)
  · simp at h
  · simp at h
  · simp at h

/-!
## Claim theorems
-/

/-- C1: the claim states that an emitted do-while is post-test — the body
runs before the condition is evaluated on each iteration, the conditional
branch targets the body block on true and the after-loop block on false,
and the preceding block is terminated by a branch into the body block.
Evaluating `emit_do_stmt` (via `emit_stmt`) on the do-while
`do { -5; } while (1 < 2);` in a fresh entry block shows what the code
actually does: the condition's single `icmp` (value id 0) is emitted into
the ENTRY block, before the body and only once; the entry block is left
WITHOUT any terminator (no branch into the body block); and the body
block's conditional branch reuses that pre-loop value — only the branch
targets (body on true, after-loop on false) match the claim. -/
theorem C1_do_while_emission :
    emit_stmt junkU entrySt (.doS doBodyC1 doCondC1) =
      ⟨3, 3,
       [(0, "entry", [.icmp .slt (.constInt (.int 32) 1 false) (.constInt (.int 32) 2 false)]),
        (1, "do", [.negI (.constInt (.int 32) 5 false), .condbr (.instr 0) 1 2]),
        (2, "after_do", [])],
       2, []⟩
    ∧ blockTerminated (blockInstrs (emit_stmt junkU entrySt (.doS doBodyC1 doCondC1)) 0) = false
    ∧ blockInstrs (emit_stmt junkU entrySt (.doS doBodyC1 doCondC1)) 1 =
        [.negI (.constInt (.int 32) 5 false), .condbr (.instr 0) 1 2] :=
  ⟨rfl, rfl, rfl⟩

/-- C2 counterexample: for the concrete runtime compound assignment
`a += 5` at type `U32` (`addAssignC2`), the emitted block is exactly
load / unsigned add / store — but the value of the whole expression is
`instr 2`, the STORE instruction itself, not `instr 1`, the newly stored
value (the add result that the store writes back).  This refutes the
claim's final clause "the expression's result value is the newly stored
value". -/
theorem C2_counterexample :
    (emit_expr junkU false entrySt addAssignC2).2 = .instr 2
    ∧ blockInstrs (emit_expr junkU false entrySt addAssignC2).1 0 =
        [.load .vnull, .binop .add (.instr 0) (.constInt (.int 32) 5 false),
         .store (.instr 1) .vnull]
    ∧ Value.instr 2 ≠ Value.instr 1 :=
  ⟨rfl, rfl, by simp⟩

/-- C2 (amended): for every compound assignment emitted in runtime mode,
with arbitrary subexpression emitter `emitSub` (the open-recursion slot of
`emit_expr`), arbitrary prior state and arbitrary operand expressions: the
left operand is emitted exactly once (`p1`), then the right operand, and
exactly three instructions are appended — one load through the left value,
the operator instruction selected by the expression's static type
(`compoundRhsInstr`), and one store of the new value back through the SAME
left value — and the expression's result is the store instruction
(`instr (nextVal + 2)`), not the newly stored value. -/
theorem C2_compound_assignment (emitSub : GenState → Expr → GenState × Value)
    (st : GenState) (ty : Ty) (op : BinOp) (le re : Expr)
    (hop : op ∈ compoundAssignOps) :
    emit_bin_op_expr emitSub false st ty op le re =
      (let p1 := emitSub st le
       let p2 := emitSub p1.1 re
       let oldVal := Value.instr p2.1.nextVal
       let newVal := Value.instr (p2.1.nextVal + 1)
       (addI (addI (addI p2.1 (.load p1.2)) (compoundRhsInstr op ty oldVal p2.2))
          (.store newVal p1.2),
        Value.instr (p2.1.nextVal + 2))) := by
  fin_cases hop <;>
  · rcases h1 : emitSub st le with ⟨st1, l⟩
    rcases h2 : emitSub st1 re with ⟨st2, r⟩
    by_cases hf : is_float_type ty <;>
    by_cases hu : is_unsigned_int_type ty <;>
    simp [emit_bin_op_expr, h1, h2, emit_add, emit_sub, emit_mul, emit_div,
      emit_mod, is_assignment, compoundRhsInstr, buildInstr, addI, hf, hu]

/-- C2 witness: `C2_compound_assignment` applied to the concrete
right-shift assignment `a >>= 1` at the unsigned type `U64`, in the fresh
entry block. -/
theorem C2_witness :
    emit_bin_op_expr (emitExprF junkU false 1) false entrySt .u64 .shiftRAssign
      (.stubE (.pointer .u64)) (.intLit .u64 1) =
    (addI (addI (addI entrySt (.load .vnull))
        (.binop .lshr (.instr 0) (.constInt (.int 64) 1 false)))
      (.store (.instr 1) .vnull), .instr 2) := by
  rw [C2_compound_assignment (emitExprF junkU false 1) entrySt .u64 .shiftRAssign
    (.stubE (.pointer .u64)) (.intLit .u64 1) (by decide)]
  rfl

/-- C3 counterexample: lexing the string literal `"a\nb"` consumes one
physical newline (positions 0 to 5 of the buffer contain one `'\n'`), yet
the returned line counter is still 1, not 1 + 1 — refuting the claim that
EVERY consumed newline (string literals included) increments the counter. -/
theorem C3_counterexample :
    lex lim0 ['"', 'a', '\n', 'b', '"'] 0 1 = .ok (stringLitTok ['a', '\n', 'b'] 3 1, 5, 1)
    ∧ nlCount ['"', 'a', '\n', 'b', '"'] 0 5 = 1
    ∧ 1 ≠ 1 + nlCount ['"', 'a', '\n', 'b', '"'] 0 5 := by decide

/-- C3 (amended): the line counter equals its previous value plus the
number of newline bytes consumed OUTSIDE string literals: (1) whenever
`skip_spaces` succeeds — covering code whitespace, line comments and block
comments — the new line counter is exactly the old one plus the number of
newline bytes between the old and new scan positions; (2) consuming a
newline when the counter has reached 65536 is the fatal file-too-long
error; (3) the string-literal scanner returns the line counter UNCHANGED,
no matter how many newlines it consumed. -/
theorem C3_line_counter :
    (∀ (fuel : Nat) (inp : List Char) (pos lineno pos' lineno' : Nat),
      skipSpacesF fuel inp pos lineno = .ok (pos', lineno') →
      pos ≤ pos' ∧ lineno' = lineno + nlCount inp pos pos')
    ∧ inc_lineno MAX_LINENO =
        .fatal MAX_LINENO ("Source file longer than " ++ toString MAX_LINENO ++ " lines")
    ∧ (∀ (maxS : Nat) (inp : List Char) (pos lineno : Nat) (tok : Tok) (pos' lineno' : Nat),
        lex_string_lit maxS inp pos lineno = .ok (tok, pos', lineno') → lineno' = lineno) :=
  ⟨skipSpacesF_nl, by decide, lex_string_lit_lineno⟩

/-- C3 witness: `C3_line_counter` applied to the concrete input
`" \n x"` — `skip_spaces` stops at the `x` (position 3) having counted the
one newline: the counter goes from 1 to 2 = 1 + 1. -/
theorem C3_witness :
    skipSpacesF (lexFuel [' ', '\n', ' ', 'x']) [' ', '\n', ' ', 'x'] 0 1 = .ok (3, 2)
    ∧ 2 = 1 + nlCount [' ', '\n', ' ', 'x'] 0 3 := by
  have h := C3_line_counter.1 (lexFuel [' ', '\n', ' ', 'x']) [' ', '\n', ' ', 'x'] 0 1 3 2
    (by decide)
  exact ⟨by decide, h.2⟩

/-- C4 counterexample: the printed form of `LT_LT_EQ` is `<<=`, but lexing
it yields a single `LT_LT` token consuming only two characters — the
operator scanner never extends `<<` to `<<=`, so the round trip fails for
`LT_LT_EQ` (and likewise for `>>=`, `->`, `<-`, `=>`, `\`). -/
theorem C4_counterexample :
    lex lim0 (printedForm .LT_LT_EQ) 0 1 = .ok (basicTok .LT_LT 1, 2, 1)
    ∧ TokKind.LT_LT ≠ TokKind.LT_LT_EQ := by decide

/-- C4 (amended): the round trip holds exactly for the 41 operator kinds
`lex_op` can produce (`producedOpKinds`): for every identifier limit, line
number and kind in that list, lexing the printed form yields a single token
of that kind consuming the whole form.  The scanner is greedy only up to
TWO characters: `<` extends to `<<` or `<=` but `<<=` lexes as `<<`; `+++`
lexes as `++`; `>>=` lexes as `>>`; and the kinds `LT_LT_EQ`, `GT_GT_EQ`,
`ARROW`, `BACK_ARROW`, `BIG_ARROW`, `BACKSLASH` are never produced — `->`
lexes as `-`, `<-` as `<`, `=>` as `=`, and `\` is a fatal invalid
token. -/
theorem C4_operator_round_trip :
    (∀ (lim : LexLimits) (lineno : Nat), ∀ k ∈ producedOpKinds,
      lex lim (printedForm k) 0 lineno =
        .ok (basicTok k lineno, (printedForm k).length, lineno))
    ∧ lex lim0 "<".toList 0 1 = .ok (basicTok .LT 1, 1, 1)
    ∧ lex lim0 "<<".toList 0 1 = .ok (basicTok .LT_LT 1, 2, 1)
    ∧ lex lim0 "<=".toList 0 1 = .ok (basicTok .LT_EQ 1, 2, 1)
    ∧ lex lim0 "+++".toList 0 1 = .ok (basicTok .PLUS_PLUS 1, 2, 1)
    ∧ lex lim0 ">>=".toList 0 1 = .ok (basicTok .GT_GT 1, 2, 1)
    ∧ lex lim0 "->".toList 0 1 = .ok (basicTok .MINUS 1, 1, 1)
    ∧ lex lim0 "<-".toList 0 1 = .ok (basicTok .LT 1, 1, 1)
    ∧ lex lim0 "=>".toList 0 1 = .ok (basicTok .EQ 1, 1, 1)
    ∧ lex lim0 "\\".toList 0 1 = .fatal 1 "Invalid token `\\`" := by
  refine ⟨?_, by decide, by decide, by decide, by decide, by decide, by decide,
    by decide, by decide, by decide⟩
  intro lim lineno k hk
  fin_cases hk <;> rfl

/-- C4 witness: `C4_operator_round_trip` applied to `PLUS_PLUS` — lexing
`++` yields a `PLUS_PLUS` token consuming both characters. -/
theorem C4_witness :
    lex lim0 (printedForm .PLUS_PLUS) 0 1 =
      .ok (basicTok .PLUS_PLUS 1, (printedForm .PLUS_PLUS).length, 1) :=
  C4_operator_round_trip.1 lim0 1 .PLUS_PLUS (by decide)

/-- C5: every claimed lowering rule holds EXCEPT the function-type rule.
Lowering the function type `(U8) -> void` yields a signature whose
parameter list is the content of the uninitialized `xmalloc`ed array
(`undef 0` under the junk oracle), NOT the lowered parameter type `i8` —
the C code never fills `llvm_params`.  The remaining conjuncts evaluate the
correct rules: sized integers to matching widths, unsized to 32 bits, char
to 32 bits, bool to 1 bit, floats to single/double, a zero-length array to
the fat pointer `{ i16, elem* }`, a length-3 array to a 3-element
aggregate, and a tuple to the ordered aggregate of its lowered members. -/
theorem C5_type_lowering :
    get_llvm_type junkU (.func (.cons .u8 .nil) .voidTy) = .funcT .voidT [.undef 0] false
    ∧ [LLVMType.undef 0] ≠ [get_llvm_type junkU .u8]
    ∧ get_llvm_type junkU .u8 = .int 8
    ∧ get_llvm_type junkU .u16 = .int 16
    ∧ get_llvm_type junkU .u32 = .int 32
    ∧ get_llvm_type junkU .u64 = .int 64
    ∧ get_llvm_type junkU .i8 = .int 8
    ∧ get_llvm_type junkU .unsizedInt = .int 32
    ∧ get_llvm_type junkU .charTy = .int 32
    ∧ get_llvm_type junkU .boolTy = .int 1
    ∧ get_llvm_type junkU .f32 = .float
    ∧ get_llvm_type junkU .f64 = .double
    ∧ get_llvm_type junkU (.array .u32 0) = .structT [.int 16, .ptr (.int 32)]
    ∧ get_llvm_type junkU (.array .u32 3) = .arrayT (.int 32) 3
    ∧ get_llvm_type junkU (.tuple (.cons .u8 (.cons .boolTy .nil))) = .structT [.int 8, .int 1] :=
  ⟨rfl, by rw [show get_llvm_type junkU Ty.u8 = LLVMType.int 8 from rfl]; simp,
   rfl, rfl, rfl, rfl, rfl, rfl, rfl, rfl, rfl, rfl, rfl, rfl, rfl⟩

/-- C6 counterexample: the input `.5` does NOT fail with a
radix-point-at-start error — top-level dispatch sends the leading `.` to
the operator scanner, yielding a `DOT` token. -/
theorem C6_counterexample :
    lex lim0 ".5".toList 0 1 = .ok (basicTok .DOT 1, 1, 1) := by decide

/-- C6 (amended): `1.2.3` is fatal with multiple radix points; `.5` lexes
as the token `.` followed by the integer 5 (the radix-point-at-beginning
error is unreachable from top-level dispatch, which never starts a numeric
literal at `.`); `5.` is fatal with radix point at end; `0x1.8` is fatal as
a non-base-10 float; `007` is fatal as a leading zero; and a bare `0`
succeeds as the integer zero. -/
theorem C6_malformed_numeric_literals :
    lex lim0 "1.2.3".toList 0 1 = .fatal 1 "Floating point literal has multiple radix points"
    ∧ lex lim0 ".5".toList 0 1 = .ok (basicTok .DOT 1, 1, 1)
    ∧ lex lim0 ".5".toList 1 1 = .ok (intLitTok 5 1, 2, 1)
    ∧ lex lim0 "5.".toList 0 1 = .fatal 1 "Radix point at end of floating point literal"
    ∧ lex lim0 "0x1.8".toList 0 1 = .fatal 1 "Floating point literal is not base 10"
    ∧ lex lim0 "007".toList 0 1 = .fatal 1 "Numerical literal has a leading zero"
    ∧ lex lim0 "0".toList 0 1 = .ok (intLitTok 0 1, 1, 1) := by decide

/-- C7: the claim says the scanner copies exactly the bytes strictly
between the quotes, so `""` is an empty string.  The do-while copy loop
instead copies its first byte UNCONDITIONALLY: on the input `""x"` the
first string token's content is the 2-byte sequence `"x` (the second quote
was consumed as content and scanning ran on to the fourth), and on the
input `""` alone the loop runs past the end of the mapped buffer (the
out-of-bounds model outcome `stuck`). -/
theorem C7_string_literal_copy :
    lex lim0 ['"', '"', 'x', '"'] 0 1 = .ok (stringLitTok ['"', 'x'] 2 1, 4, 1)
    ∧ lex lim0 ['"', '"'] 0 1 = .stuck := by decide

/-- C8: general statement plus the spec's examples.  For every base in
{2, 8, 10, 16} and every nonempty run of valid digits (of at most
`MAX_NUM_CHARS` characters) that ends the buffer, the scanner yields an
integer token whose magnitude is the digits' positional value when that
value fits in 64 unsigned bits, and the fatal too-large error otherwise.
Concretely, `0x1F`, `0b11111`, `0o37` and `31` all lex to magnitude 31,
and the 65-bit literal `18446744073709551616` is fatal. -/
theorem C8_integer_literal_magnitudes :
    (∀ (base : Nat) (ds pre : List Char) (lineno : Nat),
      (base = 2 ∨ base = 8 ∨ base = 10 ∨ base = 16) →
      ds ≠ [] →
      ds.length ≤ MAX_NUM_CHARS →
      (∀ c ∈ ds, isValidDigit base c = true) →
      lex_num_lit_with_base base (pre ++ ds) pre.length lineno =
        (if strtoullVal base ds > UINT64_MAX then
          LexOut.fatal lineno ("Integer literal greater than " ++ toString UINT64_MAX)
        else
          .ok (intLitTok (strtoullVal base ds) lineno, pre.length + ds.length, lineno)))
    ∧ lex lim0 "0x1F".toList 0 1 = .ok (intLitTok 31 1, 4, 1)
    ∧ lex lim0 "0b11111".toList 0 1 = .ok (intLitTok 31 1, 7, 1)
    ∧ lex lim0 "0o37".toList 0 1 = .ok (intLitTok 31 1, 4, 1)
    ∧ lex lim0 "31".toList 0 1 = .ok (intLitTok 31 1, 2, 1)
    ∧ lex lim0 "18446744073709551616".toList 0 1 =
        .fatal 1 ("Integer literal greater than " ++ toString UINT64_MAX) := by
  refine ⟨?_, by decide, by decide, by decide, by decide, by decide⟩
  intro base ds pre lineno hbase hne hlen hv
  unfold lex_num_lit_with_base
  rw [numLitLoopF_digits base hbase ds hv pre [] false lineno (lexFuel (pre ++ ds))
    (by simp [lexFuel]; omega) (by simpa using hlen)]
  have hne' : ¬ (ds.length = 0) := by simpa [List.length_eq_zero] using hne
  simp only [List.nil_append, if_neg hne', Bool.false_eq_true, if_false]

/-- C8 witness: `C8_integer_literal_magnitudes` applied to the hex digits
`1F` — magnitude 31. -/
theorem C8_witness :
    lex_num_lit_with_base 16 "1F".toList 0 1 = .ok (intLitTok 31 1, 2, 1) := by
  have h := C8_integer_literal_magnitudes.1 16 "1F".toList [] 1 (by decide) (by decide)
    (by decide) (by decide)
  exact h.trans (by decide)

/-- C9: for every input, once the scan position is at (or past) the end of
input, `lex` yields the EOF token and returns the scan position and line
counter UNCHANGED, with no error — so repeated calls after EOF keep
yielding EOF (idempotence follows since the returned state equals the
argument state). -/
theorem C9_eof_idempotent (lim : LexLimits) (inp : List Char) (pos lineno : Nat)
    (h : inp.length ≤ pos) :
    lex lim inp pos lineno = .ok (basicTok .TEOF lineno, pos, lineno) := by
  have hp := peek_eq_nul inp pos h
  have hs : skipSpaces inp pos lineno = .ok (pos, lineno) := by
    rw [skipSpaces, show lexFuel inp = (2 * inp.length + 7) + 1 from rfl]
    exact skipSpacesF_stop _ _ _ _ (by rw [hp]; decide) (by rw [hp]; decide)
  simp only [lex, hs, hp]
  rfl

/-- C9 witness: `C9_eof_idempotent` on the empty input at position 0. -/
theorem C9_witness :
    lex lim0 [] 0 1 = .ok (basicTok .TEOF 1, 0, 1) :=
  C9_eof_idempotent lim0 [] 0 1 (by decide)

/-- C10: the hexadecimal digit predicate accepts no lowercase letter
`a`–`f`, and consequently every hex literal whose first character after
`0x` is a lowercase hex letter (such as `0xff`) accumulates no digits and
dies with the fatal no-digits error, whatever follows and whatever the
current line number. -/
theorem C10_hex_digits_uppercase_only :
    (∀ c ∈ ['a', 'b', 'c', 'd', 'e', 'f'], is_hex_digit c = false)
    ∧ (∀ (lim : LexLimits) (rest : List Char) (lineno : Nat),
        ∀ c ∈ ['a', 'b', 'c', 'd', 'e', 'f'],
        lex lim ('0' :: 'x' :: c :: rest) 0 lineno =
          .fatal lineno "Numerical literal has no digits") := by
  refine ⟨by decide, ?_⟩
  intro lim rest lineno c hc
  fin_cases hc <;> rfl

/-- C10 witness: `C10_hex_digits_uppercase_only` applied to the spec's
example `0xff`. -/
theorem C10_witness :
    lex lim0 ('0' :: 'x' :: 'f' :: ['f']) 0 1 = .fatal 1 "Numerical literal has no digits" :=
  C10_hex_digits_uppercase_only.2 lim0 ['f'] 1 'f' (by decide)

end Langc
